import Mathlib

/-
Shallow embedding of the CHIP-8 interpreter core from
joshuaholmes/chip8_this_time_in_rust (src/cpu.rs, src/opcode.rs,
src/keyboard.rs).

Conventions of the embedding:
  * Rust `u8` / `usize` values are Lean `Nat`s; wrapping arithmetic is
    made explicit with `% 256` (resp. `% 2^64`).
  * A Rust `panic!` (which aborts the process) is modelled as the
    `Except.error` channel carrying an `EmuPanic` value that records
    which panic site fired.  Rust array indexing out of bounds is the
    `indexOutOfBounds` panic.
  * The wall-clock bookkeeping of `Cpu::fetch_and_execute`
    (`last_timer_decrease` / `SystemTime::now()`) is threaded as an
    explicit `elapsedNs` input: the number of nanoseconds elapsed since
    the last recorded timer decrement.  Likewise `Cpu::get_random_byte`
    is threaded as an explicit `randomByte` input.
  * `Display::draw_screen` only reads the CPU (it renders `vram`), so
    the draw branch of the step function only clears `draw_flag`.
  * The `disasm_str` diagnostic strings of `OpCode` play no role in
    execution semantics and are omitted.
-/

/-- How many bytes of system memory there are (`MEMORY_LENGTH`). -/
def MEMORY_LENGTH : Nat := 0xFFF

/-- How many items the stack holds (`STACK_LENGTH`). -/
def STACK_LENGTH : Nat := 0x10

/-- The number of data registers (`NUM_REGISTERS`). -/
def NUM_REGISTERS : Nat := 0x10

/-- The address at which the font data starts (`FONT_SET_START_ADDR`). -/
def FONT_SET_START_ADDR : Nat := 0x000

/-- The address where the user program begins (`USER_PROGRAM_START_ADDR`). -/
def USER_PROGRAM_START_ADDR : Nat := 0x200

/-- Virtual display width in pixels (`VIRTUAL_DISPLAY_WIDTH`). -/
def VIRTUAL_DISPLAY_WIDTH : Nat := 64

/-- Virtual display height in pixels (`VIRTUAL_DISPLAY_HEIGHT`). -/
def VIRTUAL_DISPLAY_HEIGHT : Nat := 32

/-- Bytes per instruction (`INSTR_SIZE` in opcode.rs). -/
def INSTR_SIZE : Nat := 2

/-- The interpreter font set (`FONT_SET` in cpu.rs), 80 bytes. -/
def FONT_SET : List Nat :=
  [ 0xF0, 0x90, 0x90, 0x90, 0xF0,
    0x20, 0x60, 0x20, 0x20, 0x70,
    0xF0, 0x10, 0xF0, 0x80, 0xF0,
    0xF0, 0x10, 0xF0, 0x10, 0xF0,
    0x90, 0x90, 0xF0, 0x10, 0x10,
    0xF0, 0x80, 0xF0, 0x10, 0xF0,
    0xF0, 0x80, 0xF0, 0x90, 0xF0,
    0xF0, 0x10, 0x20, 0x40, 0x40,
    0xF0, 0x90, 0xF0, 0x90, 0xF0,
    0xF0, 0x90, 0xF0, 0x10, 0xF0,
    0xF0, 0x90, 0xF0, 0x90, 0x90,
    0xE0, 0x90, 0xE0, 0x90, 0xE0,
    0xF0, 0x80, 0x80, 0x80, 0xF0,
    0xE0, 0x90, 0x90, 0x90, 0xE0,
    0xF0, 0x80, 0xF0, 0x80, 0xF0,
    0xF0, 0x80, 0xF0, 0x80, 0x80 ]

/-- Model of a Rust `panic!` escape: each constructor is one panic site
of the interpreter core (plus array-index-out-of-bounds panics). -/
inductive EmuPanic where
  /-- panic in `Cpu::init_from_buffer`: program image too large. -/
  | programTooBig (size : Nat)
  /-- panic in `Cpu::fetch_and_execute`: no dispatch entry matched. -/
  | unimplementedOpcode (instr : Nat)
  /-- panic in `OpCode::opcode_call_addr`: stack full. -/
  | stackOverflow
  /-- panic in `OpCode::opcode_ret`: stack empty. -/
  | stackUnderflow
  /-- Rust array index out of bounds panic (memory accesses). -/
  | indexOutOfBounds (idx : Nat)
deriving DecidableEq, Repr

/-- The keyboard (`Keyboard` in keyboard.rs): 16 pressed-flags.
Modelled as a total function; the instruction handlers under study only
query indices 0..15. -/
structure Keyboard where
  keys : Nat → Bool

/-- `Keyboard::new` -/
def Keyboard.new : Keyboard := ⟨fun _ => false⟩

/-- `Keyboard::is_pressed` -/
def Keyboard.is_pressed (kb : Keyboard) (key : Nat) : Bool := kb.keys key

/-- Pointwise update of a `Nat`-indexed byte array. -/
def updFn (f : Nat → Nat) (i v : Nat) : Nat → Nat :=
  fun j => if j = i then v else f j

/-- Pointwise update of the two-dimensional vram array. -/
def updVram (f : Nat → Nat → Bool) (y x : Nat) (b : Bool) : Nat → Nat → Bool :=
  fun y' x' => if y' = y ∧ x' = x then b else f y' x'

/-- The virtual CPU (`Cpu` in cpu.rs).  The `last_timer_decrease`
timestamp is not part of the model state: the duration since the last
decrement is an explicit input of `Cpu.fetch_and_execute`. -/
structure Cpu where
  /-- the main system memory (`[u8; MEMORY_LENGTH]`) -/
  memory : Nat → Nat
  /-- the data registers V0 through VF (`[u8; NUM_REGISTERS]`) -/
  data_registers : Nat → Nat
  /-- the I register -/
  i_register : Nat
  /-- the delay timer -/
  delay_timer : Nat
  /-- the sound timer -/
  sound_timer : Nat
  /-- the program counter -/
  program_counter : Nat
  /-- the stack pointer -/
  stack_pointer : Nat
  /-- the call stack (`[usize; STACK_LENGTH]`) -/
  stack : Nat → Nat
  /-- length of the loaded user program -/
  program_length : Nat
  /-- the virtual screen buffer, indexed `vram y x` -/
  vram : Nat → Nat → Bool
  /-- whether the screen needs redrawing -/
  draw_flag : Bool
  /-- the keyboard -/
  keyboard : Keyboard

/-- Write a list of bytes into a byte array at consecutive addresses
starting at `start` (the copy loops of `Cpu::init_from_buffer`). -/
def writeList (f : Nat → Nat) (start : Nat) : List Nat → (Nat → Nat)
  | [] => f
  | v :: rest => writeList (updFn f start v) (start + 1) rest

/-- Bounds-checked memory read: Rust `cpu.memory[i]`, panicking when
`i` is outside the array. -/
def memRead (c : Cpu) (i : Nat) : Except EmuPanic Nat :=
  if i < MEMORY_LENGTH then .ok (c.memory i) else .error (.indexOutOfBounds i)

/-- Bounds-checked memory write: Rust `cpu.memory[i] = v`. -/
def memWrite (c : Cpu) (i v : Nat) : Except EmuPanic Cpu :=
  if i < MEMORY_LENGTH then
    .ok { c with memory := updFn c.memory i v }
  else
    .error (.indexOutOfBounds i)

/-- `Cpu::init_from_buffer`.  The Rust function declares return type
`Result<Cpu, ProgramLoadError>` but its body never constructs the
`Err` variant (`ProgramLoadError::IoError` arises only in the file
based entry points): it either panics — when the program image does
not fit — or returns `Ok`.  The panic is the `EmuPanic` channel. -/
def Cpu.init_from_buffer (buf : List Nat) : Except EmuPanic Cpu :=
  if MEMORY_LENGTH - USER_PROGRAM_START_ADDR < buf.length then
    .error (.programTooBig buf.length)
  else
    .ok
      { memory := writeList (writeList (fun _ => 0) USER_PROGRAM_START_ADDR buf)
          FONT_SET_START_ADDR FONT_SET
        data_registers := fun _ => 0
        i_register := 0
        delay_timer := 0
        sound_timer := 0
        program_counter := USER_PROGRAM_START_ADDR
        stack_pointer := 0
        stack := fun _ => 0
        program_length := buf.length
        vram := fun _ _ => false
        draw_flag := false
        keyboard := Keyboard.new }

/-- Argument fields of an opcode (`OpCodeArgs` in opcode.rs). -/
structure OpCodeArgs where
  /-- low nibble of the high byte (register index) -/
  x : Nat
  /-- high nibble of the low byte (register index) -/
  y : Nat
  /-- lowest nibble (scalar value) -/
  n : Nat
  /-- lower byte (scalar value) -/
  kk : Nat
  /-- lower 3 nibbles (address) -/
  nnn : Nat
deriving DecidableEq, Repr

/-- `OpCodeArgs::from_u16`: field extraction by fixed bit masks. -/
def OpCodeArgs.from_u16 (opcode : Nat) : OpCodeArgs :=
  { x := (opcode &&& 0x0F00) >>> 8
    y := (opcode &&& 0x00F0) >>> 4
    n := opcode &&& 0x000F
    kk := opcode &&& 0x00FF
    nnn := opcode &&& 0x0FFF }

/-- Rust `u8::overflowing_add` on byte values. -/
def overflowingAdd8 (a b : Nat) : Nat × Bool :=
  ((a + b) % 256, decide (256 ≤ a + b))

/-- Rust `u8::overflowing_sub` on byte values. -/
def overflowingSub8 (a b : Nat) : Nat × Bool :=
  (if a < b then a + 256 - b else a - b, decide (a < b))

/-- Rust `usize::overflowing_add` (64-bit). -/
def overflowingAddUsize (a b : Nat) : Nat × Bool :=
  ((a + b) % 2 ^ 64, decide (2 ^ 64 ≤ a + b))

/-- 0x0nnn: `OpCode::opcode_sys`, a no-op that only advances the PC. -/
def OpCode.opcode_sys (_args : OpCodeArgs) (c : Cpu) : Except EmuPanic Cpu :=
  .ok { c with program_counter := c.program_counter + INSTR_SIZE }

/-- 0x00E0: `OpCode::opcode_cls`, clears the display. -/
def OpCode.opcode_cls (_args : OpCodeArgs) (c : Cpu) : Except EmuPanic Cpu :=
  .ok { c with vram := fun _ _ => false, draw_flag := true,
               program_counter := c.program_counter + INSTR_SIZE }

/-- 0x00EE: `OpCode::opcode_ret`, returns from a subroutine. -/
def OpCode.opcode_ret (_args : OpCodeArgs) (c : Cpu) : Except EmuPanic Cpu :=
  if c.stack_pointer = 0 then
    .error .stackUnderflow
  else
    .ok { c with stack_pointer := c.stack_pointer - 1,
                 program_counter := c.stack (c.stack_pointer - 1) + INSTR_SIZE }

/-- 0x1nnn: `OpCode::opcode_jp_addr`, jumps to an address. -/
def OpCode.opcode_jp_addr (args : OpCodeArgs) (c : Cpu) : Except EmuPanic Cpu :=
  .ok { c with program_counter := args.nnn }

/-- 0x2nnn: `OpCode::opcode_call_addr`, calls a subroutine. -/
def OpCode.opcode_call_addr (args : OpCodeArgs) (c : Cpu) : Except EmuPanic Cpu :=
  if STACK_LENGTH ≤ c.stack_pointer then
    .error .stackOverflow
  else
    .ok { c with stack := updFn c.stack c.stack_pointer c.program_counter,
                 stack_pointer := c.stack_pointer + 1,
                 program_counter := args.nnn }

/-- 0x3xkk: `OpCode::opcode_se_vx_byte`, skip next if Vx = kk. -/
def OpCode.opcode_se_vx_byte (args : OpCodeArgs) (c : Cpu) : Except EmuPanic Cpu :=
  let pc := if c.data_registers args.x = args.kk
            then c.program_counter + INSTR_SIZE else c.program_counter
  .ok { c with program_counter := pc + INSTR_SIZE }

/-- 0x4xkk: `OpCode::opcode_sne_vx_byte`, skip next if Vx ≠ kk. -/
def OpCode.opcode_sne_vx_byte (args : OpCodeArgs) (c : Cpu) : Except EmuPanic Cpu :=
  let pc := if c.data_registers args.x ≠ args.kk
            then c.program_counter + INSTR_SIZE else c.program_counter
  .ok { c with program_counter := pc + INSTR_SIZE }

/-- 0x5xy0: `OpCode::opcode_se_vx_vy`, skip next if Vx = Vy. -/
def OpCode.opcode_se_vx_vy (args : OpCodeArgs) (c : Cpu) : Except EmuPanic Cpu :=
  let pc := if c.data_registers args.x = c.data_registers args.y
            then c.program_counter + INSTR_SIZE else c.program_counter
  .ok { c with program_counter := pc + INSTR_SIZE }

/-- 0x6xkk: `OpCode::opcode_ld_vx_byte`, Vx := kk. -/
def OpCode.opcode_ld_vx_byte (args : OpCodeArgs) (c : Cpu) : Except EmuPanic Cpu :=
  .ok { c with data_registers := updFn c.data_registers args.x args.kk,
               program_counter := c.program_counter + INSTR_SIZE }

/-- 0x7xkk: `OpCode::opcode_add_vx_byte`, Vx := Vx + kk (wrapping, flag
of `overflowing_add` discarded). -/
def OpCode.opcode_add_vx_byte (args : OpCodeArgs) (c : Cpu) : Except EmuPanic Cpu :=
  let value := (overflowingAdd8 (c.data_registers args.x) args.kk).1
  .ok { c with data_registers := updFn c.data_registers args.x value,
               program_counter := c.program_counter + INSTR_SIZE }

/-- 0x8xy0: `OpCode::opcode_ld_vx_vy`, Vx := Vy. -/
def OpCode.opcode_ld_vx_vy (args : OpCodeArgs) (c : Cpu) : Except EmuPanic Cpu :=
  .ok { c with data_registers := updFn c.data_registers args.x (c.data_registers args.y),
               program_counter := c.program_counter + INSTR_SIZE }

/-- 0x8xy1: `OpCode::opcode_or_vx_vy`, Vx := Vx OR Vy. -/
def OpCode.opcode_or_vx_vy (args : OpCodeArgs) (c : Cpu) : Except EmuPanic Cpu :=
  .ok { c with data_registers := updFn c.data_registers args.x
                 (c.data_registers args.x ||| c.data_registers args.y),
               program_counter := c.program_counter + INSTR_SIZE }

/-- 0x8xy2: `OpCode::opcode_and_vx_vy`, Vx := Vx AND Vy. -/
def OpCode.opcode_and_vx_vy (args : OpCodeArgs) (c : Cpu) : Except EmuPanic Cpu :=
  .ok { c with data_registers := updFn c.data_registers args.x
                 (c.data_registers args.x &&& c.data_registers args.y),
               program_counter := c.program_counter + INSTR_SIZE }

/-- 0x8xy3: `OpCode::opcode_xor_vx_vy`, Vx := Vx XOR Vy. -/
def OpCode.opcode_xor_vx_vy (args : OpCodeArgs) (c : Cpu) : Except EmuPanic Cpu :=
  .ok { c with data_registers := updFn c.data_registers args.x
                 (c.data_registers args.x ^^^ c.data_registers args.y),
               program_counter := c.program_counter + INSTR_SIZE }

/-- 0x8xy4: `OpCode::opcode_add_vx_vy`, Vx := Vx + Vy, VF := carry. -/
def OpCode.opcode_add_vx_vy (args : OpCodeArgs) (c : Cpu) : Except EmuPanic Cpu :=
  let r := overflowingAdd8 (c.data_registers args.x) (c.data_registers args.y)
  let regs := updFn c.data_registers args.x r.1
  .ok { c with data_registers := updFn regs 0xF (if r.2 then 1 else 0),
               program_counter := c.program_counter + INSTR_SIZE }

/-- 0x8xy5: `OpCode::opcode_sub_vx_vy`, Vx := Vx - Vy, VF := NOT borrow. -/
def OpCode.opcode_sub_vx_vy (args : OpCodeArgs) (c : Cpu) : Except EmuPanic Cpu :=
  let r := overflowingSub8 (c.data_registers args.x) (c.data_registers args.y)
  let regs := updFn c.data_registers args.x r.1
  .ok { c with data_registers := updFn regs 0xF (if r.2 then 0 else 1),
               program_counter := c.program_counter + INSTR_SIZE }

/-- 0x8xy6: `OpCode::opcode_shr_vx_vy`, VF := Vx AND 1, then Vx := Vx >> 1. -/
def OpCode.opcode_shr_vx_vy (args : OpCodeArgs) (c : Cpu) : Except EmuPanic Cpu :=
  let regs := updFn c.data_registers 0xF (c.data_registers args.x &&& 0x1)
  .ok { c with data_registers := updFn regs args.x (regs args.x >>> 1),
               program_counter := c.program_counter + INSTR_SIZE }

/-- 0x8xy7: `OpCode::opcode_subn_vx_vy`, Vx := Vy - Vx, VF := NOT borrow. -/
def OpCode.opcode_subn_vx_vy (args : OpCodeArgs) (c : Cpu) : Except EmuPanic Cpu :=
  let r := overflowingSub8 (c.data_registers args.y) (c.data_registers args.x)
  let regs := updFn c.data_registers args.x r.1
  .ok { c with data_registers := updFn regs 0xF (if r.2 then 0 else 1),
               program_counter := c.program_counter + INSTR_SIZE }

/-- 0x8xyE: `OpCode::opcode_shl_vx_vy`, VF := Vx >> 7, then Vx := Vx << 1
(the u8 shift-left wraps modulo 256). -/
def OpCode.opcode_shl_vx_vy (args : OpCodeArgs) (c : Cpu) : Except EmuPanic Cpu :=
  let regs := updFn c.data_registers 0xF (c.data_registers args.x >>> 7)
  .ok { c with data_registers := updFn regs args.x ((regs args.x <<< 1) % 256),
               program_counter := c.program_counter + INSTR_SIZE }

/-- 0x9xy0: `OpCode::opcode_sne_vx_vy`, skip next if Vx ≠ Vy. -/
def OpCode.opcode_sne_vx_vy (args : OpCodeArgs) (c : Cpu) : Except EmuPanic Cpu :=
  let pc := if c.data_registers args.x ≠ c.data_registers args.y
            then c.program_counter + INSTR_SIZE else c.program_counter
  .ok { c with program_counter := pc + INSTR_SIZE }

/-- 0xAnnn: `OpCode::opcode_ld_i_addr`, I := nnn. -/
def OpCode.opcode_ld_i_addr (args : OpCodeArgs) (c : Cpu) : Except EmuPanic Cpu :=
  .ok { c with i_register := args.nnn,
               program_counter := c.program_counter + INSTR_SIZE }

/-- 0xBnnn: `OpCode::opcode_jp_v0_addr`, PC := nnn + V0. -/
def OpCode.opcode_jp_v0_addr (args : OpCodeArgs) (c : Cpu) : Except EmuPanic Cpu :=
  .ok { c with program_counter := args.nnn + c.data_registers 0x0 }

/-- 0xCxkk: `OpCode::opcode_rnd_vx_byte`, Vx := random byte AND kk.
The random byte produced by `Cpu::get_random_byte` is an explicit
input of the model. -/
def OpCode.opcode_rnd_vx_byte (randomByte : Nat) (args : OpCodeArgs) (c : Cpu) :
    Except EmuPanic Cpu :=
  .ok { c with data_registers := updFn c.data_registers args.x (randomByte &&& args.kk),
               program_counter := c.program_counter + INSTR_SIZE }

/-- One inner-loop iteration of `OpCode::opcode_drw_vx_vy_nibble`: test
bit `i` of sprite row `j`, check collision against the current vram,
then XOR the pixel (with wraparound on both axes).  The folded state is
the pair (vram, collision flag). -/
def drawPixel (spriteByte vx vy j i : Nat) (s : (Nat → Nat → Bool) × Nat) :
    (Nat → Nat → Bool) × Nat :=
  let bit := decide (spriteByte &&& (0x80 >>> i) ≠ 0)
  let x := (vx + i) % VIRTUAL_DISPLAY_WIDTH
  let y := (vy + j) % VIRTUAL_DISPLAY_HEIGHT
  let collision := if s.1 y x && bit then 1 else s.2
  (updVram s.1 y x (xor (s.1 y x) bit), collision)

/-- 0xDxyn: `OpCode::opcode_drw_vx_vy_nibble`.  The Rust slice
expression `&cpu.memory[i..i + n]` panics when `i + n` exceeds the
memory length; otherwise the sprite rows are the bytes at
`i_register + j`. -/
def OpCode.opcode_drw_vx_vy_nibble (args : OpCodeArgs) (c : Cpu) : Except EmuPanic Cpu :=
  if c.i_register + args.n ≤ MEMORY_LENGTH then
    let vx := c.data_registers args.x
    let vy := c.data_registers args.y
    let r := (List.range args.n).foldl
      (fun s j => (List.range 8).foldl
        (fun s' i => drawPixel (c.memory (c.i_register + j)) vx vy j i s') s)
      (c.vram, 0)
    .ok { c with vram := r.1,
                 data_registers := updFn c.data_registers 0xF r.2,
                 draw_flag := true,
                 program_counter := c.program_counter + INSTR_SIZE }
  else
    .error (.indexOutOfBounds (c.i_register + args.n))

/-- 0xEx9E: `OpCode::opcode_skp_vx`, skip next if key Vx pressed. -/
def OpCode.opcode_skp_vx (args : OpCodeArgs) (c : Cpu) : Except EmuPanic Cpu :=
  let pc := if c.keyboard.is_pressed (c.data_registers args.x)
            then c.program_counter + INSTR_SIZE else c.program_counter
  .ok { c with program_counter := pc + INSTR_SIZE }

/-- 0xExA1: `OpCode::opcode_sknp_vx`, skip next if key Vx not pressed. -/
def OpCode.opcode_sknp_vx (args : OpCodeArgs) (c : Cpu) : Except EmuPanic Cpu :=
  let pc := if !(c.keyboard.is_pressed (c.data_registers args.x))
            then c.program_counter + INSTR_SIZE else c.program_counter
  .ok { c with program_counter := pc + INSTR_SIZE }

/-- 0xFx07: `OpCode::opcode_ld_vx_dt`, Vx := delay timer. -/
def OpCode.opcode_ld_vx_dt (args : OpCodeArgs) (c : Cpu) : Except EmuPanic Cpu :=
  .ok { c with data_registers := updFn c.data_registers args.x c.delay_timer,
               program_counter := c.program_counter + INSTR_SIZE }

/-- 0xFx0A: `OpCode::opcode_ld_vx_k`.  Scan keys 0..15 in order; on the
first pressed key store its index in Vx and advance the PC; if no key
is pressed do nothing (the PC is not advanced). -/
def OpCode.opcode_ld_vx_k (args : OpCodeArgs) (c : Cpu) : Except EmuPanic Cpu :=
  match (List.range 16).find? (fun i => c.keyboard.is_pressed i) with
  | some i =>
      .ok { c with data_registers := updFn c.data_registers args.x i,
                   program_counter := c.program_counter + INSTR_SIZE }
  | none => .ok c

/-- 0xFx15: `OpCode::opcode_ld_dt_vx`, delay timer := Vx. -/
def OpCode.opcode_ld_dt_vx (args : OpCodeArgs) (c : Cpu) : Except EmuPanic Cpu :=
  .ok { c with delay_timer := c.data_registers args.x,
               program_counter := c.program_counter + INSTR_SIZE }

/-- 0xFx18: `OpCode::opcode_ld_st_vx`, sound timer := Vx. -/
def OpCode.opcode_ld_st_vx (args : OpCodeArgs) (c : Cpu) : Except EmuPanic Cpu :=
  .ok { c with sound_timer := c.data_registers args.x,
               program_counter := c.program_counter + INSTR_SIZE }

/-- 0xFx1E: `OpCode::opcode_add_i_vx`, I := I + Vx (usize, wrapping),
VF := overflow flag. -/
def OpCode.opcode_add_i_vx (args : OpCodeArgs) (c : Cpu) : Except EmuPanic Cpu :=
  let r := overflowingAddUsize c.i_register (c.data_registers args.x)
  .ok { c with i_register := r.1,
               data_registers := updFn c.data_registers 0xF (if r.2 then 1 else 0),
               program_counter := c.program_counter + INSTR_SIZE }

/-- 0xFx29: `OpCode::opcode_ld_f_vx`, I := Vx * 5 (font glyph address). -/
def OpCode.opcode_ld_f_vx (args : OpCodeArgs) (c : Cpu) : Except EmuPanic Cpu :=
  .ok { c with i_register := c.data_registers args.x * 5,
               program_counter := c.program_counter + INSTR_SIZE }

/-- 0xFx33: `OpCode::opcode_ld_b_vx`, store the BCD digits of Vx at
memory I, I+1, I+2 (each write bounds-checked as in Rust). -/
def OpCode.opcode_ld_b_vx (args : OpCodeArgs) (c : Cpu) : Except EmuPanic Cpu :=
  memWrite c c.i_register (c.data_registers args.x / 100) >>= fun c1 =>
  memWrite c1 (c1.i_register + 1) (c.data_registers args.x / 10 % 10) >>= fun c2 =>
  memWrite c2 (c2.i_register + 2) (c.data_registers args.x % 100 % 10) >>= fun c3 =>
  .ok { c3 with program_counter := c3.program_counter + INSTR_SIZE }

/-- The store loop of `OpCode::opcode_ld_i_vx`: write registers at
consecutive memory addresses `base + i` for the listed indices. -/
def storeRegsLoop (base : Nat) : List Nat → Cpu → Except EmuPanic Cpu
  | [], c => .ok c
  | i :: rest, c => do
      let c' ← memWrite c (base + i) (c.data_registers i)
      storeRegsLoop base rest c'

/-- 0xFx55: `OpCode::opcode_ld_i_vx`, store V0..Vx at memory I.. -/
def OpCode.opcode_ld_i_vx (args : OpCodeArgs) (c : Cpu) : Except EmuPanic Cpu := do
  let c' ← storeRegsLoop c.i_register (List.range (args.x + 1)) c
  .ok { c' with program_counter := c'.program_counter + INSTR_SIZE }

/-- The load loop of `OpCode::opcode_ld_vx_i`: read memory at `base + i`
into register `i` for the listed indices. -/
def loadRegsLoop (base : Nat) : List Nat → Cpu → Except EmuPanic Cpu
  | [], c => .ok c
  | i :: rest, c => do
      let v ← memRead c (base + i)
      loadRegsLoop base rest { c with data_registers := updFn c.data_registers i v }

/-- 0xFx65: `OpCode::opcode_ld_vx_i`, load V0..Vx from memory I.. -/
def OpCode.opcode_ld_vx_i (args : OpCodeArgs) (c : Cpu) : Except EmuPanic Cpu := do
  let c' ← loadRegsLoop c.i_register (List.range (args.x + 1)) c
  .ok { c' with program_counter := c'.program_counter + INSTR_SIZE }

/-- The handler a dispatch entry points at (the `operation` function
pointer of the Rust `OpCode` struct, as a closed sum). -/
inductive OpKind where
  | sys | cls | ret | jp_addr | call_addr | se_vx_byte | sne_vx_byte
  | se_vx_vy | ld_vx_byte | add_vx_byte | ld_vx_vy | or_vx_vy | and_vx_vy
  | xor_vx_vy | add_vx_vy | sub_vx_vy | shr_vx_vy | subn_vx_vy | shl_vx_vy
  | sne_vx_vy | ld_i_addr | jp_v0_addr | rnd_vx_byte | drw_vx_vy_nibble
  | skp_vx | sknp_vx | ld_vx_dt | ld_vx_k | ld_dt_vx | ld_st_vx
  | add_i_vx | ld_f_vx | ld_b_vx | ld_i_vx | ld_vx_i
deriving DecidableEq, Repr

/-- A decoded opcode (the Rust `OpCode` struct; the diagnostic
`disasm_str` is omitted, the `operation` function pointer is the
`kind`). -/
structure OpCode where
  opcode : Nat
  args : OpCodeArgs
  kind : OpKind
deriving DecidableEq, Repr

/-- `OpCode::from_u16`: dispatch on the top nibble, then on the
secondary selector for the ambiguous categories; `none` when no entry
matches.  The Rust `match` arms are sequential equality tests. -/
def OpCode.from_u16 (opcode : Nat) : Option OpCode :=
  let opcode_category := opcode &&& 0xF000
  let args := OpCodeArgs.from_u16 opcode
  if opcode_category = 0x0000 then
    if opcode = 0x00E0 then some ⟨opcode, args, .cls⟩
    else if opcode = 0x00EE then some ⟨opcode, args, .ret⟩
    else some ⟨opcode, args, .sys⟩
  else if opcode_category = 0x1000 then some ⟨opcode, args, .jp_addr⟩
  else if opcode_category = 0x2000 then some ⟨opcode, args, .call_addr⟩
  else if opcode_category = 0x3000 then some ⟨opcode, args, .se_vx_byte⟩
  else if opcode_category = 0x4000 then some ⟨opcode, args, .sne_vx_byte⟩
  else if opcode_category = 0x5000 then some ⟨opcode, args, .se_vx_vy⟩
  else if opcode_category = 0x6000 then some ⟨opcode, args, .ld_vx_byte⟩
  else if opcode_category = 0x7000 then some ⟨opcode, args, .add_vx_byte⟩
  else if opcode_category = 0x8000 then
    if args.n = 0x0 then some ⟨opcode, args, .ld_vx_vy⟩
    else if args.n = 0x1 then some ⟨opcode, args, .or_vx_vy⟩
    else if args.n = 0x2 then some ⟨opcode, args, .and_vx_vy⟩
    else if args.n = 0x3 then some ⟨opcode, args, .xor_vx_vy⟩
    else if args.n = 0x4 then some ⟨opcode, args, .add_vx_vy⟩
    else if args.n = 0x5 then some ⟨opcode, args, .sub_vx_vy⟩
    else if args.n = 0x6 then some ⟨opcode, args, .shr_vx_vy⟩
    else if args.n = 0x7 then some ⟨opcode, args, .subn_vx_vy⟩
    else if args.n = 0xE then some ⟨opcode, args, .shl_vx_vy⟩
    else none
  else if opcode_category = 0x9000 then
    if args.n = 0x0 then some ⟨opcode, args, .sne_vx_vy⟩ else none
  else if opcode_category = 0xA000 then some ⟨opcode, args, .ld_i_addr⟩
  else if opcode_category = 0xB000 then some ⟨opcode, args, .jp_v0_addr⟩
  else if opcode_category = 0xC000 then some ⟨opcode, args, .rnd_vx_byte⟩
  else if opcode_category = 0xD000 then some ⟨opcode, args, .drw_vx_vy_nibble⟩
  else if opcode_category = 0xE000 then
    if args.kk = 0x9E then some ⟨opcode, args, .skp_vx⟩
    else if args.kk = 0xA1 then some ⟨opcode, args, .sknp_vx⟩
    else none
  else if opcode_category = 0xF000 then
    if args.kk = 0x07 then some ⟨opcode, args, .ld_vx_dt⟩
    else if args.kk = 0x0A then some ⟨opcode, args, .ld_vx_k⟩
    else if args.kk = 0x15 then some ⟨opcode, args, .ld_dt_vx⟩
    else if args.kk = 0x18 then some ⟨opcode, args, .ld_st_vx⟩
    else if args.kk = 0x1E then some ⟨opcode, args, .add_i_vx⟩
    else if args.kk = 0x29 then some ⟨opcode, args, .ld_f_vx⟩
    else if args.kk = 0x33 then some ⟨opcode, args, .ld_b_vx⟩
    else if args.kk = 0x55 then some ⟨opcode, args, .ld_i_vx⟩
    else if args.kk = 0x65 then some ⟨opcode, args, .ld_vx_i⟩
    else none
  else none

/-- Invoke the handler selected by a dispatch entry (the indirect call
`(opcode.operation)(&opcode.args, &mut *self)`). -/
def runOp (kind : OpKind) (randomByte : Nat) (args : OpCodeArgs) (c : Cpu) :
    Except EmuPanic Cpu :=
  match kind with
  | .sys => OpCode.opcode_sys args c
  | .cls => OpCode.opcode_cls args c
  | .ret => OpCode.opcode_ret args c
  | .jp_addr => OpCode.opcode_jp_addr args c
  | .call_addr => OpCode.opcode_call_addr args c
  | .se_vx_byte => OpCode.opcode_se_vx_byte args c
  | .sne_vx_byte => OpCode.opcode_sne_vx_byte args c
  | .se_vx_vy => OpCode.opcode_se_vx_vy args c
  | .ld_vx_byte => OpCode.opcode_ld_vx_byte args c
  | .add_vx_byte => OpCode.opcode_add_vx_byte args c
  | .ld_vx_vy => OpCode.opcode_ld_vx_vy args c
  | .or_vx_vy => OpCode.opcode_or_vx_vy args c
  | .and_vx_vy => OpCode.opcode_and_vx_vy args c
  | .xor_vx_vy => OpCode.opcode_xor_vx_vy args c
  | .add_vx_vy => OpCode.opcode_add_vx_vy args c
  | .sub_vx_vy => OpCode.opcode_sub_vx_vy args c
  | .shr_vx_vy => OpCode.opcode_shr_vx_vy args c
  | .subn_vx_vy => OpCode.opcode_subn_vx_vy args c
  | .shl_vx_vy => OpCode.opcode_shl_vx_vy args c
  | .sne_vx_vy => OpCode.opcode_sne_vx_vy args c
  | .ld_i_addr => OpCode.opcode_ld_i_addr args c
  | .jp_v0_addr => OpCode.opcode_jp_v0_addr args c
  | .rnd_vx_byte => OpCode.opcode_rnd_vx_byte randomByte args c
  | .drw_vx_vy_nibble => OpCode.opcode_drw_vx_vy_nibble args c
  | .skp_vx => OpCode.opcode_skp_vx args c
  | .sknp_vx => OpCode.opcode_sknp_vx args c
  | .ld_vx_dt => OpCode.opcode_ld_vx_dt args c
  | .ld_vx_k => OpCode.opcode_ld_vx_k args c
  | .ld_dt_vx => OpCode.opcode_ld_dt_vx args c
  | .ld_st_vx => OpCode.opcode_ld_st_vx args c
  | .add_i_vx => OpCode.opcode_add_i_vx args c
  | .ld_f_vx => OpCode.opcode_ld_f_vx args c
  | .ld_b_vx => OpCode.opcode_ld_b_vx args c
  | .ld_i_vx => OpCode.opcode_ld_i_vx args c
  | .ld_vx_i => OpCode.opcode_ld_vx_i args c

/-- The 60 Hz threshold of the timer policy: timers decrement when the
elapsed duration exceeds `Duration::new(0, 16_666_666)` nanoseconds. -/
def TIMER_TICK_NS : Nat := 16666666

/-- The timer-decrement block of `Cpu::fetch_and_execute`: when more
than `TIMER_TICK_NS` nanoseconds have elapsed since the last recorded
decrement, each non-zero timer is decremented by one. -/
def tickTimers (elapsedNs : Nat) (c : Cpu) : Cpu :=
  if TIMER_TICK_NS < elapsedNs then
    let c1 := if 0 < c.delay_timer then { c with delay_timer := c.delay_timer - 1 } else c
    if 0 < c1.sound_timer then { c1 with sound_timer := c1.sound_timer - 1 } else c1
  else c

/-- `Cpu::fetch_and_execute`.  Returns `(continue?, state)` on the Rust
return path and an `EmuPanic` where the Rust code panics.  `elapsedNs`
is the wall-clock duration since the last timer decrement, `randomByte`
the byte `get_random_byte` would produce this step. -/
def Cpu.fetch_and_execute (c : Cpu) (elapsedNs randomByte : Nat) :
    Except EmuPanic (Bool × Cpu) := do
  if USER_PROGRAM_START_ADDR + c.program_length ≤ c.program_counter then
    return (false, c)
  let hi ← memRead c c.program_counter
  let lo ← memRead c (c.program_counter + 1)
  let instruction := (hi <<< 8) ||| lo
  match OpCode.from_u16 instruction with
  | none => .error (.unimplementedOpcode instruction)
  | some op => do
    let c1 ← runOp op.kind randomByte op.args c
    let c2 := tickTimers elapsedNs c1
    let c3 := if c2.draw_flag then { c2 with draw_flag := false } else c2
    return (true, c3)

/-- Iterate the step function `k` times, threading the state (a halted
state is a fixed point of the step function, so iteration through a
completed program is well defined). -/
def iterSteps (elapsedNs randomByte : Nat) : Nat → Cpu → Except EmuPanic Cpu
  | 0, c => .ok c
  | k + 1, c => do
      let p ← c.fetch_and_execute elapsedNs randomByte
      iterSteps elapsedNs randomByte k p.2

/-- Load a program image and run `k` steps (with zero elapsed time and
zero random bytes). -/
def loadAndStep (buf : List Nat) (k : Nat) : Except EmuPanic Cpu :=
  Cpu.init_from_buffer buf >>= fun c => iterSteps 0 0 k c

/-- The machine state `Cpu::init_from_buffer` builds on success. -/
def loadedCpu (buf : List Nat) : Cpu :=
  { memory := writeList (writeList (fun _ => 0) USER_PROGRAM_START_ADDR buf)
      FONT_SET_START_ADDR FONT_SET
    data_registers := fun _ => 0
    i_register := 0
    delay_timer := 0
    sound_timer := 0
    program_counter := USER_PROGRAM_START_ADDR
    stack_pointer := 0
    stack := fun _ => 0
    program_length := buf.length
    vram := fun _ _ => false
    draw_flag := false
    keyboard := Keyboard.new }

/-- Read the program counter after loading `buf` and stepping `k`
times; a large sentinel when a panic occurred. -/
def pcAfter (buf : List Nat) (k : Nat) : Nat :=
  match loadAndStep buf k with
  | .ok c => c.program_counter
  | .error _ => 999999

/-- Read data register `i` after loading `buf` and stepping `k` times. -/
def regAfter (buf : List Nat) (k i : Nat) : Nat :=
  match loadAndStep buf k with
  | .ok c => c.data_registers i
  | .error _ => 999999

/-- Read two consecutive memory bytes after loading `buf` and stepping
`k` times. -/
def memPairAfter (buf : List Nat) (k a : Nat) : Nat × Nat :=
  match loadAndStep buf k with
  | .ok c => (c.memory a, c.memory (a + 1))
  | .error _ => (999999, 999999)

/-- The panic produced by loading `buf` and stepping `k` times, if any. -/
def panicAfter (buf : List Nat) (k : Nat) : Option EmuPanic :=
  match loadAndStep buf k with
  | .ok _ => none
  | .error p => some p

/-- A concrete all-zero machine state used to instantiate theorems. -/
def zeroCpu : Cpu :=
  { memory := fun _ => 0
    data_registers := fun _ => 0
    i_register := 0
    delay_timer := 0
    sound_timer := 0
    program_counter := USER_PROGRAM_START_ADDR
    stack_pointer := 0
    stack := fun _ => 0
    program_length := 0
    vram := fun _ _ => false
    draw_flag := false
    keyboard := Keyboard.new }

/-- A concrete state whose memory holds the one-byte sprite 0xFF at
address 0 (where the I register points). -/
def drawTestCpu : Cpu :=
  { zeroCpu with memory := updFn zeroCpu.memory 0 0xFF }

/-- Modelled from the spec: one pixel update of the draw-sprite
semantics as the specification words it — "for each set bit, XOR the
corresponding frame-buffer pixel at (Vx+column, Vy+row) with wraparound
on both axes (modulo 64 and modulo 32); set register 0xF to 1 if any
XOR turned an on pixel off".  Bits that are clear touch nothing; a set
bit toggles the pixel, and records a collision exactly when the pixel
was on (the XOR turned it off). -/
def drawPixelSpec (spriteByte vx vy j i : Nat) (s : (Nat → Nat → Bool) × Nat) :
    (Nat → Nat → Bool) × Nat :=
  if spriteByte &&& (0x80 >>> i) ≠ 0 then
    let x := (vx + i) % VIRTUAL_DISPLAY_WIDTH
    let y := (vy + j) % VIRTUAL_DISPLAY_HEIGHT
    (updVram s.1 y x (!(s.1 y x)), if s.1 y x then 1 else s.2)
  else s

/-- Modelled from the spec: the draw-sprite handler as §4.2 words it —
read `n` bytes at the address register as the sprite rows, apply
`drawPixelSpec` over all rows and bit columns, store the collision flag
in register 0xF, set the dirty flag, advance the PC. -/
def drwSpec (args : OpCodeArgs) (c : Cpu) : Except EmuPanic Cpu :=
  if c.i_register + args.n ≤ MEMORY_LENGTH then
    let vx := c.data_registers args.x
    let vy := c.data_registers args.y
    let r := (List.range args.n).foldl
      (fun s j => (List.range 8).foldl
        (fun s' i => drawPixelSpec (c.memory (c.i_register + j)) vx vy j i s') s)
      (c.vram, 0)
    .ok { c with vram := r.1,
                 data_registers := updFn c.data_registers 0xF r.2,
                 draw_flag := true,
                 program_counter := c.program_counter + INSTR_SIZE }
  else
    .error (.indexOutOfBounds (c.i_register + args.n))

/-- Iterate the call handler (nested subroutine calls). -/
def nestedCalls (args : OpCodeArgs) : Nat → Cpu → Except EmuPanic Cpu
  | 0, c => .ok c
  | k + 1, c => OpCode.opcode_call_addr args c >>= nestedCalls args k

/-- The states the interpreter can reach: a successfully loaded image,
followed by any number of successful steps (with arbitrary elapsed
times and random bytes) and host keyboard updates between steps. -/
inductive Reachable : Cpu → Prop where
  | load (buf : List Nat) (c : Cpu) :
      Cpu.init_from_buffer buf = .ok c → Reachable c
  | step (c : Cpu) (elapsedNs randomByte : Nat) (b : Bool) (c' : Cpu) :
      Reachable c → c.fetch_and_execute elapsedNs randomByte = .ok (b, c') →
      Reachable c'
  | key (c : Cpu) (kb : Keyboard) :
      Reachable c → Reachable { c with keyboard := kb }

/-- The two-instruction demo program of §8: load immediate 5 into V0,
then jump back to the program start. -/
def prog7 : List Nat := [0x60, 0x05, 0x12, 0x00]

/-- The state right after loading `prog7`. -/
def c7_0 : Cpu := loadedCpu prog7

/-- `prog7` after executing the load-immediate: V0 = 5, PC at the jump. -/
def c7_1 : Cpu :=
  { c7_0 with data_registers := updFn c7_0.data_registers 0 5,
              program_counter := 0x202 }

/-- `prog7` after executing the jump: PC back at the program start. -/
def c7_2 : Cpu := { c7_1 with program_counter := 0x200 }


/-- The collision flag and dirty flag observed when executing the same
draw-sprite instruction twice in a row: (first VF, first dirty,
second VF, second dirty). -/
def drawTwiceFlags (a : OpCodeArgs) (c : Cpu) : Option (Nat × Bool × Nat × Bool) :=
  match OpCode.opcode_drw_vx_vy_nibble a c with
  | .ok c1 =>
    match OpCode.opcode_drw_vx_vy_nibble a c1 with
    | .ok c2 => some (c1.data_registers 0xF, c1.draw_flag,
        c2.data_registers 0xF, c2.draw_flag)
    | .error _ => none
  | .error _ => none

/-- The stack pointer observed after iterating the call handler, if no
panic occurred. -/
def nestedCallsProbe (a : OpCodeArgs) (k : Nat) (c : Cpu) : Option Nat :=
  match nestedCalls a k c with
  | .ok c' => some c'.stack_pointer
  | .error _ => none

/-- A two-instruction program that drives the address register out of
bounds: `LD I, 0xFFF` then `LD B, V1` (store-bcd at 0xFFF..0x1001). -/
def c8prog : List Nat := [0xAF, 0xFF, 0xF1, 0x33]

/-- The state right after loading `c8prog`. -/
def c8_0 : Cpu := loadedCpu c8prog

/-- `c8prog` after executing `LD I, 0xFFF`. -/
def c8_1 : Cpu := { c8_0 with i_register := 0xFFF, program_counter := 0x202 }

/- ------------------------------------------------------------------
Helper lemmas about the embedding.
------------------------------------------------------------------ -/

theorem updFn_apply (f : Nat → Nat) (i v j : Nat) :
    updFn f i v j = if j = i then v else f j := rfl

theorem updVram_self (f : Nat → Nat → Bool) (y x : Nat) :
    updVram f y x (f y x) = f := by
  funext y' x'
  by_cases hy : y' = y <;> by_cases hx : x' = x <;> simp [updVram, hy, hx]

theorem memWrite_ok {c c' : Cpu} {i v : Nat} (h : memWrite c i v = .ok c') :
    i < MEMORY_LENGTH ∧ c' = { c with memory := updFn c.memory i v } := by
  by_cases hb : i < MEMORY_LENGTH <;> simp [memWrite, hb] at h
  exact ⟨hb, h.symm⟩

theorem memRead_ok {c : Cpu} {i v : Nat} (h : memRead c i = .ok v) :
    i < MEMORY_LENGTH ∧ v = c.memory i := by
  by_cases hb : i < MEMORY_LENGTH <;> simp [memRead, hb] at h
  exact ⟨hb, h.symm⟩

theorem storeRegsLoop_shape {base : Nat} {l : List Nat} {c c' : Cpu}
    (h : storeRegsLoop base l c = .ok c') :
    ∃ m, c' = { c with memory := m } := by
  induction l generalizing c with
  | nil =>
      simp [storeRegsLoop] at h
      exact ⟨c.memory, by simp [← h]⟩
  | cons i rest ih =>
      simp only [storeRegsLoop, bind, Except.bind] at h
      rcases hw : memWrite c (base + i) (c.data_registers i) with p | c1
      · rw [hw] at h; cases h
      · rw [hw] at h
        obtain ⟨hb, rfl⟩ := memWrite_ok hw
        obtain ⟨m, hm⟩ := ih h
        exact ⟨m, by simp [hm]⟩

theorem loadRegsLoop_shape {base : Nat} {l : List Nat} {c c' : Cpu}
    (h : loadRegsLoop base l c = .ok c') :
    ∃ rs, c' = { c with data_registers := rs } := by
  induction l generalizing c with
  | nil =>
      simp [loadRegsLoop] at h
      exact ⟨c.data_registers, by simp [← h]⟩
  | cons i rest ih =>
      simp only [loadRegsLoop, bind, Except.bind] at h
      rcases hw : memRead c (base + i) with p | v
      · rw [hw] at h; cases h
      · rw [hw] at h
        obtain ⟨rs, hm⟩ := ih h
        exact ⟨rs, by simp [hm]⟩

/- ------------------------------------------------------------------
Bit-level bridging lemmas: the mask-and-shift extractions of
`OpCodeArgs::from_u16` compute divisions and remainders.
------------------------------------------------------------------ -/

theorem mask_f00_shift (op : Nat) : (op &&& 0x0F00) >>> 8 = op / 256 % 16 := by
  apply Nat.eq_of_testBit_eq
  intro i
  have key : Nat.testBit 0x0F00 (8 + i) = decide (i < 4) := by
    rcases Nat.lt_or_ge i 4 with h | h
    · interval_cases i <;> decide
    · have hlt : (0x0F00 : Nat) < 2 ^ (8 + i) := by
        calc (0x0F00 : Nat) < 2 ^ 12 := by norm_num
        _ ≤ 2 ^ (8 + i) := Nat.pow_le_pow_right (by norm_num) (by omega)
      rw [Nat.testBit_lt_two_pow hlt]
      simp
      omega
  rw [Nat.testBit_shiftRight, Nat.testBit_and, key,
    show (256 : Nat) = 2 ^ 8 by norm_num, ← Nat.shiftRight_eq_div_pow,
    show (16 : Nat) = 2 ^ 4 by norm_num, Nat.testBit_mod_two_pow,
    Nat.testBit_shiftRight, Bool.and_comm]

theorem mask_f0_shift (op : Nat) : (op &&& 0x00F0) >>> 4 = op / 16 % 16 := by
  apply Nat.eq_of_testBit_eq
  intro i
  have key : Nat.testBit 0x00F0 (4 + i) = decide (i < 4) := by
    rcases Nat.lt_or_ge i 4 with h | h
    · interval_cases i <;> decide
    · have hlt : (0x00F0 : Nat) < 2 ^ (4 + i) := by
        calc (0x00F0 : Nat) < 2 ^ 8 := by norm_num
        _ ≤ 2 ^ (4 + i) := Nat.pow_le_pow_right (by norm_num) (by omega)
      rw [Nat.testBit_lt_two_pow hlt]
      simp
      omega
  rw [Nat.testBit_shiftRight, Nat.testBit_and, key,
    show (16 : Nat) = 2 ^ 4 by norm_num, ← Nat.shiftRight_eq_div_pow,
    Nat.testBit_mod_two_pow, Nat.testBit_shiftRight, Bool.and_comm]

theorem mask_000f (op : Nat) : op &&& 0x000F = op % 16 := by
  rw [show (0x000F : Nat) = 2 ^ 4 - 1 by norm_num,
    Nat.and_pow_two_sub_one_eq_mod]

theorem mask_00ff (op : Nat) : op &&& 0x00FF = op % 256 := by
  rw [show (0x00FF : Nat) = 2 ^ 8 - 1 by norm_num,
    Nat.and_pow_two_sub_one_eq_mod]

theorem mask_0fff (op : Nat) : op &&& 0x0FFF = op % 4096 := by
  rw [show (0x0FFF : Nat) = 2 ^ 12 - 1 by norm_num,
    Nat.and_pow_two_sub_one_eq_mod]

theorem from_u16_fields (op : Nat) :
    OpCodeArgs.from_u16 op =
      ⟨op / 256 % 16, op / 16 % 16, op % 16, op % 256, op % 4096⟩ := by
  unfold OpCodeArgs.from_u16
  rw [mask_f00_shift, mask_f0_shift, mask_000f, mask_00ff, mask_0fff]

theorem updFn_write_same (f : Nat → Nat) (i v w : Nat) :
    updFn (updFn f i v) i w = updFn f i w := by
  funext j
  by_cases h : j = i <;> simp [updFn, h]

theorem except_bind_ok {α β ε : Type} (a : α) (f : α → Except ε β) :
    (Except.ok a >>= f) = f a := rfl

theorem except_bind_error {α β ε : Type} (e : ε) (f : α → Except ε β) :
    ((Except.error e : Except ε α) >>= f) = (Except.error e : Except ε β) := rfl

theorem tickTimers_shape (e : Nat) (c : Cpu) :
    ∃ d s, tickTimers e c = { c with delay_timer := d, sound_timer := s } := by
  unfold tickTimers
  dsimp only
  split_ifs <;> exact ⟨_, _, rfl⟩

theorem tickTimers_delay (e : Nat) (c : Cpu) :
    (tickTimers e c).delay_timer =
      if TIMER_TICK_NS < e then c.delay_timer - 1 else c.delay_timer := by
  unfold tickTimers
  dsimp only
  split_ifs <;> simp_all

theorem tickTimers_sound (e : Nat) (c : Cpu) :
    (tickTimers e c).sound_timer =
      if TIMER_TICK_NS < e then c.sound_timer - 1 else c.sound_timer := by
  unfold tickTimers
  dsimp only
  split_ifs <;> simp_all

theorem tickTimers_timers_zero {c : Cpu} (hd : c.delay_timer = 0)
    (hs : c.sound_timer = 0) (e : Nat) : tickTimers e c = c := by
  simp [tickTimers, hd, hs]

theorem opcode_ld_b_vx_ok {a : OpCodeArgs} {c c' : Cpu}
    (h : OpCode.opcode_ld_b_vx a c = .ok c') :
    c.i_register + 2 < MEMORY_LENGTH ∧
    ∃ m, c' = { c with memory := m,
                       program_counter := c.program_counter + INSTR_SIZE } := by
  unfold OpCode.opcode_ld_b_vx at h
  rcases h1 : memWrite c c.i_register (c.data_registers a.x / 100) with p | c1
  · rw [h1, except_bind_error] at h; cases h
  · rw [h1, except_bind_ok] at h
    rcases h2 : memWrite c1 (c1.i_register + 1) (c.data_registers a.x / 10 % 10)
      with p | c2
    · rw [h2, except_bind_error] at h; cases h
    · rw [h2, except_bind_ok] at h
      rcases h3 : memWrite c2 (c2.i_register + 2) (c.data_registers a.x % 100 % 10)
        with p | c3
      · rw [h3, except_bind_error] at h; cases h
      · rw [h3, except_bind_ok] at h
        simp only [Except.ok.injEq] at h
        obtain ⟨hb1, hc1⟩ := memWrite_ok h1
        obtain ⟨hb2, hc2⟩ := memWrite_ok h2
        obtain ⟨hb3, hc3⟩ := memWrite_ok h3
        subst hc1
        subst hc2
        subst hc3
        subst h
        exact ⟨hb3, _, rfl⟩

theorem storeRegsLoop_bounds {base : Nat} {l : List Nat} {c c' : Cpu}
    (h : storeRegsLoop base l c = .ok c') :
    ∀ i ∈ l, base + i < MEMORY_LENGTH := by
  induction l generalizing c with
  | nil => intro i hi; cases hi
  | cons i rest ih =>
      intro j hj
      simp only [storeRegsLoop, bind, Except.bind] at h
      rcases hw : memWrite c (base + i) (c.data_registers i) with p | c1
      · rw [hw] at h; cases h
      · rw [hw] at h
        rcases List.mem_cons.mp hj with rfl | hj'
        · exact (memWrite_ok hw).1
        · exact ih h j hj'

theorem loadRegsLoop_bounds {base : Nat} {l : List Nat} {c c' : Cpu}
    (h : loadRegsLoop base l c = .ok c') :
    ∀ i ∈ l, base + i < MEMORY_LENGTH := by
  induction l generalizing c with
  | nil => intro i hi; cases hi
  | cons i rest ih =>
      intro j hj
      simp only [loadRegsLoop, bind, Except.bind] at h
      rcases hw : memRead c (base + i) with p | v
      · rw [hw] at h; cases h
      · rw [hw] at h
        rcases List.mem_cons.mp hj with rfl | hj'
        · exact (memRead_ok hw).1
        · exact ih h j hj'

theorem opcode_ld_i_vx_ok {a : OpCodeArgs} {c c' : Cpu}
    (h : OpCode.opcode_ld_i_vx a c = .ok c') :
    c.i_register + a.x < MEMORY_LENGTH ∧
    ∃ m, c' = { c with memory := m,
                       program_counter := c.program_counter + INSTR_SIZE } := by
  unfold OpCode.opcode_ld_i_vx at h
  simp only [bind, Except.bind] at h
  rcases hl : storeRegsLoop c.i_register (List.range (a.x + 1)) c with p | c1
  · rw [hl] at h; cases h
  · rw [hl] at h
    have hb := storeRegsLoop_bounds hl a.x (by simp)
    obtain ⟨m, rfl⟩ := storeRegsLoop_shape hl
    simp only [Except.ok.injEq] at h
    exact ⟨hb, m, h.symm ▸ by simp⟩

theorem opcode_ld_vx_i_ok {a : OpCodeArgs} {c c' : Cpu}
    (h : OpCode.opcode_ld_vx_i a c = .ok c') :
    c.i_register + a.x < MEMORY_LENGTH ∧
    ∃ rs, c' = { c with data_registers := rs,
                        program_counter := c.program_counter + INSTR_SIZE } := by
  unfold OpCode.opcode_ld_vx_i at h
  simp only [bind, Except.bind] at h
  rcases hl : loadRegsLoop c.i_register (List.range (a.x + 1)) c with p | c1
  · rw [hl] at h; cases h
  · rw [hl] at h
    have hb := loadRegsLoop_bounds hl a.x (by simp)
    obtain ⟨rs, rfl⟩ := loadRegsLoop_shape hl
    simp only [Except.ok.injEq] at h
    exact ⟨hb, rs, h.symm ▸ by simp⟩

theorem opcode_drw_ok {a : OpCodeArgs} {c c' : Cpu}
    (h : OpCode.opcode_drw_vx_vy_nibble a c = .ok c') :
    c.i_register + a.n ≤ MEMORY_LENGTH ∧
    ∃ v rs, c' = { c with vram := v, data_registers := rs, draw_flag := true,
                          program_counter := c.program_counter + INSTR_SIZE } := by
  unfold OpCode.opcode_drw_vx_vy_nibble at h
  split at h
  · simp only [Except.ok.injEq] at h
    exact ⟨by assumption, _, _, h.symm⟩
  · cases h

theorem runOp_sp {k : OpKind} {r : Nat} {a : OpCodeArgs} {c c' : Cpu}
    (h : runOp k r a c = .ok c') :
    c'.stack_pointer ≤ max c.stack_pointer STACK_LENGTH := by
  cases k <;>
  first
  | (obtain ⟨hb, m, rfl⟩ := opcode_ld_b_vx_ok h
     exact Nat.le_max_left _ _)
  | (obtain ⟨hb, m, rfl⟩ := opcode_ld_i_vx_ok h
     exact Nat.le_max_left _ _)
  | (obtain ⟨hb, rs, rfl⟩ := opcode_ld_vx_i_ok h
     exact Nat.le_max_left _ _)
  | (obtain ⟨hb, v, rs, rfl⟩ := opcode_drw_ok h
     exact Nat.le_max_left _ _)
  | (simp only [runOp, OpCode.opcode_ret] at h
     split at h
     next hc => cases h
     next hc =>
       simp only [Except.ok.injEq] at h
       subst h
       exact Nat.le_trans (Nat.sub_le _ _) (Nat.le_max_left _ _))
  | (simp only [runOp, OpCode.opcode_call_addr] at h
     split at h
     next hc => cases h
     next hc =>
       simp only [Except.ok.injEq] at h
       subst h
       have hlt : c.stack_pointer + 1 ≤ STACK_LENGTH := by
         unfold STACK_LENGTH at hc ⊢
         omega
       exact Nat.le_trans hlt (Nat.le_max_right _ _))
  | (simp only [runOp, OpCode.opcode_sys, OpCode.opcode_cls, OpCode.opcode_jp_addr,
      OpCode.opcode_se_vx_byte, OpCode.opcode_sne_vx_byte, OpCode.opcode_se_vx_vy,
      OpCode.opcode_ld_vx_byte, OpCode.opcode_add_vx_byte, OpCode.opcode_ld_vx_vy,
      OpCode.opcode_or_vx_vy, OpCode.opcode_and_vx_vy, OpCode.opcode_xor_vx_vy,
      OpCode.opcode_add_vx_vy, OpCode.opcode_sub_vx_vy, OpCode.opcode_shr_vx_vy,
      OpCode.opcode_subn_vx_vy, OpCode.opcode_shl_vx_vy, OpCode.opcode_sne_vx_vy,
      OpCode.opcode_ld_i_addr, OpCode.opcode_jp_v0_addr, OpCode.opcode_rnd_vx_byte,
      OpCode.opcode_skp_vx, OpCode.opcode_sknp_vx, OpCode.opcode_ld_vx_dt,
      OpCode.opcode_ld_dt_vx, OpCode.opcode_ld_st_vx, OpCode.opcode_add_i_vx,
      OpCode.opcode_ld_f_vx, Except.ok.injEq] at h
     subst h
     exact Nat.le_max_left _ _)
  | (rcases hf : (List.range 16).find? (fun i => c.keyboard.is_pressed i) with _ | i <;>
      simp only [runOp, OpCode.opcode_ld_vx_k, hf, Except.ok.injEq] at h <;>
      (subst h; exact Nat.le_max_left _ _))

theorem runOp_timers {k : OpKind} {r : Nat} {a : OpCodeArgs} {c c' : Cpu}
    (h : runOp k r a c = .ok c') :
    (k ≠ OpKind.ld_dt_vx → c'.delay_timer = c.delay_timer) ∧
    (k ≠ OpKind.ld_st_vx → c'.sound_timer = c.sound_timer) := by
  cases k <;>
  first
  | (obtain ⟨hb, m, rfl⟩ := opcode_ld_b_vx_ok h
     exact ⟨fun _ => rfl, fun _ => rfl⟩)
  | (obtain ⟨hb, m, rfl⟩ := opcode_ld_i_vx_ok h
     exact ⟨fun _ => rfl, fun _ => rfl⟩)
  | (obtain ⟨hb, rs, rfl⟩ := opcode_ld_vx_i_ok h
     exact ⟨fun _ => rfl, fun _ => rfl⟩)
  | (obtain ⟨hb, v, rs, rfl⟩ := opcode_drw_ok h
     exact ⟨fun _ => rfl, fun _ => rfl⟩)
  | (simp only [runOp, OpCode.opcode_ret, OpCode.opcode_call_addr] at h
     split at h
     next hc => cases h
     next hc =>
       simp only [Except.ok.injEq] at h
       subst h
       exact ⟨fun _ => rfl, fun _ => rfl⟩)
  | (simp only [runOp, OpCode.opcode_sys, OpCode.opcode_cls, OpCode.opcode_jp_addr,
      OpCode.opcode_se_vx_byte, OpCode.opcode_sne_vx_byte, OpCode.opcode_se_vx_vy,
      OpCode.opcode_ld_vx_byte, OpCode.opcode_add_vx_byte, OpCode.opcode_ld_vx_vy,
      OpCode.opcode_or_vx_vy, OpCode.opcode_and_vx_vy, OpCode.opcode_xor_vx_vy,
      OpCode.opcode_add_vx_vy, OpCode.opcode_sub_vx_vy, OpCode.opcode_shr_vx_vy,
      OpCode.opcode_subn_vx_vy, OpCode.opcode_shl_vx_vy, OpCode.opcode_sne_vx_vy,
      OpCode.opcode_ld_i_addr, OpCode.opcode_jp_v0_addr, OpCode.opcode_rnd_vx_byte,
      OpCode.opcode_skp_vx, OpCode.opcode_sknp_vx, OpCode.opcode_ld_vx_dt,
      OpCode.opcode_add_i_vx, OpCode.opcode_ld_f_vx, Except.ok.injEq] at h
     subst h
     exact ⟨fun _ => rfl, fun _ => rfl⟩)
  | (simp only [runOp, OpCode.opcode_ld_dt_vx, Except.ok.injEq] at h
     subst h
     exact ⟨fun hne => absurd rfl hne, fun _ => rfl⟩)
  | (simp only [runOp, OpCode.opcode_ld_st_vx, Except.ok.injEq] at h
     subst h
     exact ⟨fun _ => rfl, fun hne => absurd rfl hne⟩)
  | (rcases hf : (List.range 16).find? (fun i => c.keyboard.is_pressed i) with _ | i <;>
      simp only [runOp, OpCode.opcode_ld_vx_k, hf, Except.ok.injEq] at h <;>
      (subst h; exact ⟨fun _ => rfl, fun _ => rfl⟩))

theorem fetch_halted {c : Cpu} {e r : Nat}
    (hge : USER_PROGRAM_START_ADDR + c.program_length ≤ c.program_counter) :
    c.fetch_and_execute e r = .ok (false, c) := by
  unfold Cpu.fetch_and_execute
  rw [if_pos hge]
  rfl

theorem fetch_not_halted {c : Cpu} {e r : Nat} {p : Bool × Cpu}
    (hlt : c.program_counter < USER_PROGRAM_START_ADDR + c.program_length)
    (h : c.fetch_and_execute e r = .ok p) : p.1 = true := by
  unfold Cpu.fetch_and_execute at h
  rw [if_neg (by omega)] at h
  rcases h1 : memRead c c.program_counter with q | hi
  · rw [h1, except_bind_error] at h; cases h
  · rw [h1, except_bind_ok] at h
    rcases h2 : memRead c (c.program_counter + 1) with q | lo
    · rw [h2, except_bind_error] at h; cases h
    · rw [h2, except_bind_ok] at h
      simp only [pure, Except.pure, except_bind_ok] at h
      split at h
      · cases h
      · rename_i op hop
        rcases hr : runOp op.kind r op.args c with q | c1
        · rw [hr, except_bind_error] at h; cases h
        · rw [hr, except_bind_ok] at h
          simp only [pure, Except.pure, Except.ok.injEq] at h
          rw [← h]

theorem fetch_step_shape {c : Cpu} {e r : Nat} {b : Bool} {c' : Cpu}
    (h : c.fetch_and_execute e r = .ok (b, c')) :
    (USER_PROGRAM_START_ADDR + c.program_length ≤ c.program_counter ∧ c' = c) ∨
    (∃ op c1,
      OpCode.from_u16 ((c.memory c.program_counter <<< 8) |||
          c.memory (c.program_counter + 1)) = some op ∧
      runOp op.kind r op.args c = .ok c1 ∧
      (c' = tickTimers e c1 ∨
       c' = { tickTimers e c1 with draw_flag := false })) := by
  unfold Cpu.fetch_and_execute at h
  by_cases hend : USER_PROGRAM_START_ADDR + c.program_length ≤ c.program_counter
  · rw [if_pos hend] at h
    replace h : (Except.ok (false, c) : Except EmuPanic (Bool × Cpu)) = .ok (b, c') := h
    simp only [Except.ok.injEq, Prod.mk.injEq] at h
    exact Or.inl ⟨hend, h.2.symm⟩
  · rw [if_neg hend] at h
    rcases h1 : memRead c c.program_counter with q | hi
    · rw [h1, except_bind_error] at h; cases h
    · rw [h1, except_bind_ok] at h
      rcases h2 : memRead c (c.program_counter + 1) with q | lo
      · rw [h2, except_bind_error] at h; cases h
      · rw [h2, except_bind_ok] at h
        simp only [pure, Except.pure, except_bind_ok] at h
        obtain ⟨hb1, rfl⟩ := memRead_ok h1
        obtain ⟨hb2, rfl⟩ := memRead_ok h2
        split at h
        · cases h
        · rename_i op hop
          rcases hr : runOp op.kind r op.args c with q | c1
          · rw [hr, except_bind_error] at h; cases h
          · rw [hr, except_bind_ok] at h
            simp only [pure, Except.pure, Except.ok.injEq, Prod.mk.injEq] at h
            refine Or.inr ⟨op, c1, hop, hr, ?_⟩
            rcases h with ⟨hb', hc'⟩
            by_cases hd : (tickTimers e c1).draw_flag = true
            · rw [if_pos hd] at hc'
              exact Or.inr hc'.symm
            · rw [if_neg hd] at hc'
              exact Or.inl hc'.symm

theorem drawPixel_eq_spec (sb vx vy j i : Nat) :
    drawPixel sb vx vy j i = drawPixelSpec sb vx vy j i := by
  funext s
  unfold drawPixel drawPixelSpec
  by_cases hb : sb &&& (0x80 >>> i) ≠ 0
  · simp [hb]
  · simp [hb, updVram_self]

theorem opcode_drw_eq_drwSpec : OpCode.opcode_drw_vx_vy_nibble = drwSpec := by
  funext a c
  unfold OpCode.opcode_drw_vx_vy_nibble drwSpec
  simp only [drawPixel_eq_spec]

/- ------------------------------------------------------------------
Claim theorems.
------------------------------------------------------------------ -/

/-- C9: argument-field extraction is a pure, total, deterministic
function of the 16-bit instruction: register-X is bits 8–11,
register-Y bits 4–7, the nibble bits 0–3, the byte bits 0–7 and the
address bits 0–11; and decoding an instruction synthesized from nibble
fields returns exactly the bits used to synthesize it. -/
theorem C9_decoder_fields_roundtrip :
    (∀ op : Nat, OpCodeArgs.from_u16 op =
        ⟨op / 256 % 16, op / 16 % 16, op % 16, op % 256, op % 4096⟩) ∧
    (∀ cat x y n : Nat, cat < 16 → x < 16 → y < 16 → n < 16 →
        OpCodeArgs.from_u16 (cat * 4096 + x * 256 + y * 16 + n) =
          ⟨x, y, n, y * 16 + n, x * 256 + y * 16 + n⟩) := by
  constructor
  · exact from_u16_fields
  · intro cat x y n hc hx hy hn
    rw [from_u16_fields]
    simp only [OpCodeArgs.mk.injEq]
    refine ⟨by omega, by omega, by omega, by omega, by omega⟩

/-- Witness for C9 at the synthesized instruction 0x1234. -/
theorem C9_witness :
    OpCodeArgs.from_u16 (1 * 4096 + 2 * 256 + 3 * 16 + 4) =
      ⟨2, 3, 4, 3 * 16 + 4, 2 * 256 + 3 * 16 + 4⟩ :=
  C9_decoder_fields_roundtrip.2 1 2 3 4 (by decide) (by decide) (by decide)
    (by decide)

/-- C10: every instruction with top nibble 0 other than 0x00E0 and
0x00EE dispatches to the SYS handler, which advances the program
counter by one instruction width and changes nothing else. -/
theorem C10_sys_noop :
    ∀ op : Nat, op &&& 0xF000 = 0 → op ≠ 0x00E0 → op ≠ 0x00EE →
      OpCode.from_u16 op = some ⟨op, OpCodeArgs.from_u16 op, OpKind.sys⟩ ∧
      ∀ c : Cpu,
        OpCode.opcode_sys (OpCodeArgs.from_u16 op) c =
          .ok { c with program_counter := c.program_counter + INSTR_SIZE } ∧
        ∀ c' : Cpu, OpCode.opcode_sys (OpCodeArgs.from_u16 op) c = .ok c' →
          c'.memory = c.memory ∧ c'.data_registers = c.data_registers ∧
          c'.i_register = c.i_register ∧ c'.delay_timer = c.delay_timer ∧
          c'.sound_timer = c.sound_timer ∧ c'.stack_pointer = c.stack_pointer ∧
          c'.stack = c.stack ∧ c'.program_length = c.program_length ∧
          c'.vram = c.vram ∧ c'.draw_flag = c.draw_flag ∧
          c'.keyboard = c.keyboard ∧
          c'.program_counter = c.program_counter + INSTR_SIZE := by
  intro op h0 hE0 hEE
  refine ⟨?_, ?_⟩
  · simp [OpCode.from_u16, h0, hE0, hEE]
  · intro c
    refine ⟨rfl, ?_⟩
    intro c' h
    simp only [OpCode.opcode_sys, Except.ok.injEq] at h
    subst h
    exact ⟨rfl, rfl, rfl, rfl, rfl, rfl, rfl, rfl, rfl, rfl, rfl, rfl⟩

/-- Witness for C10 at the SYS instruction 0x0123 and a concrete state. -/
theorem C10_witness :
    OpCode.from_u16 0x0123 =
      some ⟨0x0123, OpCodeArgs.from_u16 0x0123, OpKind.sys⟩ ∧
    OpCode.opcode_sys (OpCodeArgs.from_u16 0x0123) zeroCpu =
      .ok { zeroCpu with program_counter := zeroCpu.program_counter + INSTR_SIZE } :=
  ⟨(C10_sys_noop 0x0123 (by decide) (by decide) (by decide)).1,
   ((C10_sys_noop 0x0123 (by decide) (by decide) (by decide)).2 zeroCpu).1⟩

/-- C1 counterexample: at concrete inputs, each fatal condition ends in
the panic channel (the model of Rust `panic!`, a process abort), not in
an error value returned to the caller: the claim as stated is false.
The load failure yields no machine state (the result is not `.ok`). -/
theorem C1_counterexample :
    Cpu.init_from_buffer (List.replicate 0xE00 0) =
      .error (.programTooBig 0xE00) ∧
    panicAfter [0x80, 0x08] 1 = some (.unimplementedOpcode 0x8008) ∧
    OpCode.opcode_call_addr (OpCodeArgs.from_u16 0x2300)
      { zeroCpu with stack_pointer := STACK_LENGTH } = .error .stackOverflow ∧
    OpCode.opcode_ret (OpCodeArgs.from_u16 0x00EE) zeroCpu =
      .error .stackUnderflow := by
  refine ⟨?_, by decide, rfl, rfl⟩
  unfold Cpu.init_from_buffer
  rw [if_pos (by rw [List.length_replicate]; decide), List.length_replicate]

/-- C1 (amended): every fatal condition — program image too large at
load, a decoded instruction matching no dispatch entry, a call when the
stack is full, and a return when the stack is empty — aborts execution
through the panic channel with a condition-specific diagnostic value (a
process abort, not an error value returned to the caller), and on a
load failure no Machine State is produced. -/
theorem C1_fatal_conditions_panic :
    (∀ buf : List Nat, MEMORY_LENGTH - USER_PROGRAM_START_ADDR < buf.length →
        Cpu.init_from_buffer buf = .error (.programTooBig buf.length)) ∧
    (∀ (c : Cpu) (e r : Nat),
        c.program_counter < USER_PROGRAM_START_ADDR + c.program_length →
        c.program_counter + 1 < MEMORY_LENGTH →
        OpCode.from_u16 ((c.memory c.program_counter <<< 8) |||
          c.memory (c.program_counter + 1)) = none →
        c.fetch_and_execute e r =
          .error (.unimplementedOpcode ((c.memory c.program_counter <<< 8) |||
            c.memory (c.program_counter + 1)))) ∧
    (∀ (a : OpCodeArgs) (c : Cpu), STACK_LENGTH ≤ c.stack_pointer →
        OpCode.opcode_call_addr a c = .error .stackOverflow) ∧
    (∀ (a : OpCodeArgs) (c : Cpu), c.stack_pointer = 0 →
        OpCode.opcode_ret a c = .error .stackUnderflow) := by
  refine ⟨?_, ?_, ?_, ?_⟩
  · intro buf hbig
    unfold Cpu.init_from_buffer
    rw [if_pos hbig]
  · intro c e r hlt hb hnone
    unfold Cpu.fetch_and_execute
    rw [if_neg (by omega)]
    have hr1 : memRead c c.program_counter = .ok (c.memory c.program_counter) := by
      unfold memRead
      rw [if_pos (by omega)]
    have hr2 : memRead c (c.program_counter + 1) =
        .ok (c.memory (c.program_counter + 1)) := by
      unfold memRead
      rw [if_pos (by omega)]
    rw [hr1, except_bind_ok, hr2, except_bind_ok]
    simp only [pure, Except.pure, except_bind_ok]
    split
    · rfl
    · rename_i op hop
      rw [hnone] at hop
      cases hop
  · intro a c hfull
    unfold OpCode.opcode_call_addr
    rw [if_pos hfull]
  · intro a c hempty
    unfold OpCode.opcode_ret
    rw [if_pos hempty]

/-- Witness for C1 at concrete states for each of the four conditions. -/
theorem C1_fatal_witness :
    Cpu.init_from_buffer (List.replicate 0xE00 1) =
      .error (.programTooBig (List.replicate 0xE00 1).length) ∧
    ({ zeroCpu with
        memory := updFn (updFn zeroCpu.memory 0x200 0x80) 0x201 0x08,
        program_length := 2 } : Cpu).fetch_and_execute 0 0 =
      .error (.unimplementedOpcode
        ((({ zeroCpu with
              memory := updFn (updFn zeroCpu.memory 0x200 0x80) 0x201 0x08,
              program_length := 2 } : Cpu).memory 0x200 <<< 8) |||
          ({ zeroCpu with
              memory := updFn (updFn zeroCpu.memory 0x200 0x80) 0x201 0x08,
              program_length := 2 } : Cpu).memory 0x201)) ∧
    OpCode.opcode_call_addr (OpCodeArgs.from_u16 0x2345)
      { zeroCpu with stack_pointer := 16 } = .error .stackOverflow ∧
    OpCode.opcode_ret (OpCodeArgs.from_u16 0x00EE) zeroCpu =
      .error .stackUnderflow :=
  ⟨C1_fatal_conditions_panic.1 (List.replicate 0xE00 1)
    (by rw [List.length_replicate]; decide),
   C1_fatal_conditions_panic.2.1 _ 0 0 (by decide) (by decide) (by decide),
   C1_fatal_conditions_panic.2.2.1 (OpCodeArgs.from_u16 0x2345) _ (by decide),
   C1_fatal_conditions_panic.2.2.2 (OpCodeArgs.from_u16 0x00EE) zeroCpu rfl⟩

/-- C5 counterexample: with destination register 0xF the claim fails.
`ADD VF, 01` (0x7F01) changes register 0xF from 0 to 1, so add-immediate
does not leave register 0xF unchanged; and `SHL VF, VF` (0x8FFE) on
VF = 0x80 leaves VF = 2, which is neither the claimed wrapped result
(0x00) nor the claimed shifted-out bit (1). -/
theorem C5_counterexample :
    (match OpCode.opcode_add_vx_byte (OpCodeArgs.from_u16 0x7F01) zeroCpu with
      | .ok c => c.data_registers 0xF
      | .error _ => 999999) = 1 ∧
    zeroCpu.data_registers 0xF = 0 ∧
    (match OpCode.opcode_shl_vx_vy (OpCodeArgs.from_u16 0x8FFE)
        { zeroCpu with data_registers := updFn zeroCpu.data_registers 0xF 0x80 } with
      | .ok c => c.data_registers 0xF
      | .error _ => 999999) = 2 :=
  ⟨by decide, rfl, by decide⟩

/-- C5 (amended): add-immediate and the register-to-register ALU ops
never produce a fatal error — they always return a successor state —
and their results wrap modulo 256; for every destination register
other than 0xF, register 0xF receives exactly the carry bit for ADD,
the NOT-borrow bit for SUB and SUB-reverse, the shifted-out bit for
the one-bit shifts, and is left unchanged by add-immediate.  (When the
destination is register 0xF itself, the final flag write of the
sequential handler clobbers the stored result, as the counterexample
shows.) -/
theorem C5_alu_semantics :
    (∀ (a : OpCodeArgs) (c : Cpu), ∃ c',
        OpCode.opcode_add_vx_byte a c = .ok c' ∧
        c'.data_registers a.x = (c.data_registers a.x + a.kk) % 256 ∧
        (a.x ≠ 0xF → c'.data_registers 0xF = c.data_registers 0xF)) ∧
    (∀ (a : OpCodeArgs) (c : Cpu), ∃ c',
        OpCode.opcode_ld_vx_vy a c = .ok c' ∧
        c'.data_registers a.x = c.data_registers a.y) ∧
    (∀ (a : OpCodeArgs) (c : Cpu), ∃ c',
        OpCode.opcode_or_vx_vy a c = .ok c' ∧
        c'.data_registers a.x = c.data_registers a.x ||| c.data_registers a.y) ∧
    (∀ (a : OpCodeArgs) (c : Cpu), ∃ c',
        OpCode.opcode_and_vx_vy a c = .ok c' ∧
        c'.data_registers a.x = c.data_registers a.x &&& c.data_registers a.y) ∧
    (∀ (a : OpCodeArgs) (c : Cpu), ∃ c',
        OpCode.opcode_xor_vx_vy a c = .ok c' ∧
        c'.data_registers a.x = c.data_registers a.x ^^^ c.data_registers a.y) ∧
    (∀ (a : OpCodeArgs) (c : Cpu), ∃ c',
        OpCode.opcode_add_vx_vy a c = .ok c' ∧
        (a.x ≠ 0xF →
          c'.data_registers a.x =
            (c.data_registers a.x + c.data_registers a.y) % 256 ∧
          c'.data_registers 0xF =
            if 256 ≤ c.data_registers a.x + c.data_registers a.y then 1 else 0)) ∧
    (∀ (a : OpCodeArgs) (c : Cpu), c.data_registers a.x < 256 →
        c.data_registers a.y < 256 → ∃ c',
        OpCode.opcode_sub_vx_vy a c = .ok c' ∧
        (a.x ≠ 0xF →
          c'.data_registers a.x =
            (c.data_registers a.x + 256 - c.data_registers a.y) % 256 ∧
          c'.data_registers 0xF =
            if c.data_registers a.y ≤ c.data_registers a.x then 1 else 0)) ∧
    (∀ (a : OpCodeArgs) (c : Cpu), c.data_registers a.x < 256 →
        c.data_registers a.y < 256 → ∃ c',
        OpCode.opcode_subn_vx_vy a c = .ok c' ∧
        (a.x ≠ 0xF →
          c'.data_registers a.x =
            (c.data_registers a.y + 256 - c.data_registers a.x) % 256 ∧
          c'.data_registers 0xF =
            if c.data_registers a.x ≤ c.data_registers a.y then 1 else 0)) ∧
    (∀ (a : OpCodeArgs) (c : Cpu), ∃ c',
        OpCode.opcode_shr_vx_vy a c = .ok c' ∧
        (a.x ≠ 0xF →
          c'.data_registers a.x = c.data_registers a.x / 2 ∧
          c'.data_registers 0xF = c.data_registers a.x % 2)) ∧
    (∀ (a : OpCodeArgs) (c : Cpu), c.data_registers a.x < 256 → ∃ c',
        OpCode.opcode_shl_vx_vy a c = .ok c' ∧
        (a.x ≠ 0xF →
          c'.data_registers a.x = c.data_registers a.x * 2 % 256 ∧
          c'.data_registers 0xF = c.data_registers a.x / 128)) := by
  refine ⟨?_, ?_, ?_, ?_, ?_, ?_, ?_, ?_, ?_, ?_⟩
  · intro a c
    refine ⟨_, rfl, ?_, ?_⟩
    · simp [OpCode.opcode_add_vx_byte, overflowingAdd8, updFn]
    · intro hx
      have hx' : ¬ (0xF = a.x) := fun hh => hx hh.symm
      simp [OpCode.opcode_add_vx_byte, updFn, hx']
  · intro a c
    exact ⟨_, rfl, by simp [OpCode.opcode_ld_vx_vy, updFn]⟩
  · intro a c
    exact ⟨_, rfl, by simp [OpCode.opcode_or_vx_vy, updFn]⟩
  · intro a c
    exact ⟨_, rfl, by simp [OpCode.opcode_and_vx_vy, updFn]⟩
  · intro a c
    exact ⟨_, rfl, by simp [OpCode.opcode_xor_vx_vy, updFn]⟩
  · intro a c
    refine ⟨_, rfl, ?_⟩
    intro hx
    constructor
    · simp [OpCode.opcode_add_vx_vy, overflowingAdd8, updFn, hx]
    · simp [OpCode.opcode_add_vx_vy, overflowingAdd8, updFn]
  · intro a c hxb hyb
    refine ⟨_, rfl, ?_⟩
    intro hx
    constructor
    · simp only [OpCode.opcode_sub_vx_vy, overflowingSub8, updFn, hx]
      simp [hx]
      split_ifs <;> omega
    · simp [OpCode.opcode_sub_vx_vy, overflowingSub8, updFn]
      split_ifs <;> omega
  · intro a c hxb hyb
    refine ⟨_, rfl, ?_⟩
    intro hx
    constructor
    · simp only [OpCode.opcode_subn_vx_vy, overflowingSub8, updFn, hx]
      simp [hx]
      split_ifs <;> omega
    · simp [OpCode.opcode_subn_vx_vy, overflowingSub8, updFn]
      split_ifs <;> omega
  · intro a c
    refine ⟨_, rfl, ?_⟩
    intro hx
    have hx' : ¬ (0xF = a.x) := fun hh => hx hh.symm
    constructor
    · simp [OpCode.opcode_shr_vx_vy, updFn, hx, hx', Nat.shiftRight_one]
    · simp [OpCode.opcode_shr_vx_vy, updFn, hx, hx', Nat.and_one_is_mod]
  · intro a c hxb
    refine ⟨_, rfl, ?_⟩
    intro hx
    have hx' : ¬ (0xF = a.x) := fun hh => hx hh.symm
    constructor
    · simp [OpCode.opcode_shl_vx_vy, updFn, hx, hx', Nat.shiftLeft_eq]
    · simp [OpCode.opcode_shl_vx_vy, updFn, hx, hx',
        Nat.shiftRight_eq_div_pow]

/-- Witness for C5: the SUB and SHL conjuncts applied at concrete
byte-valued states. -/
theorem C5_witness :
    (∃ c',
      OpCode.opcode_sub_vx_vy (OpCodeArgs.from_u16 0x8125) zeroCpu = .ok c' ∧
      ((OpCodeArgs.from_u16 0x8125).x ≠ 0xF →
        c'.data_registers (OpCodeArgs.from_u16 0x8125).x =
          (zeroCpu.data_registers (OpCodeArgs.from_u16 0x8125).x + 256 -
            zeroCpu.data_registers (OpCodeArgs.from_u16 0x8125).y) % 256 ∧
        c'.data_registers 0xF =
          if zeroCpu.data_registers (OpCodeArgs.from_u16 0x8125).y ≤
              zeroCpu.data_registers (OpCodeArgs.from_u16 0x8125).x
          then 1 else 0)) ∧
    (∃ c',
      OpCode.opcode_shl_vx_vy (OpCodeArgs.from_u16 0x812E) zeroCpu = .ok c' ∧
      ((OpCodeArgs.from_u16 0x812E).x ≠ 0xF →
        c'.data_registers (OpCodeArgs.from_u16 0x812E).x =
          zeroCpu.data_registers (OpCodeArgs.from_u16 0x812E).x * 2 % 256 ∧
        c'.data_registers 0xF =
          zeroCpu.data_registers (OpCodeArgs.from_u16 0x812E).x / 128)) :=
  ⟨C5_alu_semantics.2.2.2.2.2.2.1 (OpCodeArgs.from_u16 0x8125) zeroCpu
      (by decide) (by decide),
   C5_alu_semantics.2.2.2.2.2.2.2.2.2 (OpCodeArgs.from_u16 0x812E) zeroCpu
      (by decide)⟩

theorem find?_range'_least {p : Nat → Bool} :
    ∀ (n s k : Nat), k < n → p (s + k) = true → (∀ j < k, p (s + j) = false) →
      (List.range' s n).find? p = some (s + k) := by
  intro n
  induction n with
  | zero => intro s k hk; exact absurd hk (by omega)
  | succ n ih =>
      intro s k hk hpk hleast
      rw [List.range'_succ, List.find?_cons]
      cases k with
      | zero =>
          simp only [Nat.add_zero] at hpk
          rw [hpk]
          simp
      | succ k =>
          have h0 : p s = false := by
            have := hleast 0 (Nat.succ_pos k)
            simpa using this
          simp only [h0]
          have := ih (s + 1) k (by omega)
            (by rw [show s + 1 + k = s + (k + 1) by omega]; exact hpk)
            (fun j hj => by
              rw [show s + 1 + j = s + (j + 1) by omega]
              exact hleast (j + 1) (by omega))
          rw [show s + 1 + k = s + (k + 1) from by omega] at this
          exact this

theorem find?_range_least {p : Nat → Bool} {n k : Nat} (hk : k < n)
    (hpk : p k = true) (hleast : ∀ j < k, p j = false) :
    (List.range n).find? p = some k := by
  rw [List.range_eq_range']
  have := find?_range'_least n 0 k hk (by simpa using hpk)
    (fun j hj => by simpa using hleast j hj)
  simpa using this

/-- C4: while no key is pressed, wait-for-key leaves the machine state
(and in particular the program counter) completely unchanged, so
repeated steps re-execute it; on a step where some key is pressed it
stores the lowest pressed key index into Vx and advances the program
counter by exactly one instruction width. -/
theorem C4_wait_for_key :
    (∀ (a : OpCodeArgs) (c : Cpu),
        (∀ i, i < 16 → c.keyboard.is_pressed i = false) →
        OpCode.opcode_ld_vx_k a c = .ok c) ∧
    (∀ (a : OpCodeArgs) (c : Cpu) (k : Nat), k < 16 →
        c.keyboard.is_pressed k = true →
        (∀ j, j < k → c.keyboard.is_pressed j = false) →
        OpCode.opcode_ld_vx_k a c =
          .ok { c with data_registers := updFn c.data_registers a.x k,
                       program_counter := c.program_counter + INSTR_SIZE }) := by
  constructor
  · intro a c hnone
    unfold OpCode.opcode_ld_vx_k
    have hfind : (List.range 16).find? (fun i => c.keyboard.is_pressed i) = none := by
      rw [List.find?_eq_none]
      intro x hx
      simp only [Bool.not_eq_true]
      exact hnone x (by simpa using hx)
    rw [hfind]
  · intro a c k hk hpk hleast
    unfold OpCode.opcode_ld_vx_k
    rw [find?_range_least hk hpk hleast]

/-- Witness for C4: no key pressed on the all-zero state; key 3 as the
lowest pressed key on a state where keys 3 and 7 are pressed. -/
theorem C4_witness :
    OpCode.opcode_ld_vx_k (OpCodeArgs.from_u16 0xF20A) zeroCpu = .ok zeroCpu ∧
    OpCode.opcode_ld_vx_k (OpCodeArgs.from_u16 0xF20A)
        { zeroCpu with keyboard := ⟨fun i => decide (i = 3 ∨ i = 7)⟩ } =
      .ok { { zeroCpu with keyboard := ⟨fun i => decide (i = 3 ∨ i = 7)⟩ } with
            data_registers :=
              updFn ({ zeroCpu with
                keyboard := ⟨fun i => decide (i = 3 ∨ i = 7)⟩ } : Cpu).data_registers
                (OpCodeArgs.from_u16 0xF20A).x 3,
            program_counter :=
              ({ zeroCpu with
                keyboard := ⟨fun i => decide (i = 3 ∨ i = 7)⟩ } : Cpu).program_counter +
                INSTR_SIZE } :=
  ⟨C4_wait_for_key.1 (OpCodeArgs.from_u16 0xF20A) zeroCpu
      (fun i _ => rfl),
   C4_wait_for_key.2 (OpCodeArgs.from_u16 0xF20A) _ 3 (by decide) (by decide)
      (by intro j hj; interval_cases j <;> decide)⟩

/-- C6: the delay and sound timers saturate at zero and never wrap;
each timer tick decreases them by at most one; ticks happen only when
more than 1/60 s (in nanoseconds, 60·e > 10⁹) has elapsed since the
last recorded tick, never merely because an instruction executed; and
from delay_timer = 1 two qualifying ticks leave the timer at 0. -/
theorem C6_timer_policy :
    (∀ (e : Nat) (c : Cpu), 60 * e ≤ 1000000000 → tickTimers e c = c) ∧
    (∀ (e : Nat) (c : Cpu), 1000000000 < 60 * e →
        (tickTimers e c).delay_timer = c.delay_timer - 1 ∧
        (tickTimers e c).sound_timer = c.sound_timer - 1) ∧
    (∀ (e : Nat) (c : Cpu),
        c.delay_timer - 1 ≤ (tickTimers e c).delay_timer ∧
        (tickTimers e c).delay_timer ≤ c.delay_timer ∧
        c.sound_timer - 1 ≤ (tickTimers e c).sound_timer ∧
        (tickTimers e c).sound_timer ≤ c.sound_timer) ∧
    (∀ (c : Cpu) (e r : Nat) (b : Bool) (c' : Cpu),
        c.fetch_and_execute e r = .ok (b, c') → 60 * e ≤ 1000000000 →
        (∀ op, OpCode.from_u16 ((c.memory c.program_counter <<< 8) |||
            c.memory (c.program_counter + 1)) = some op →
          op.kind ≠ OpKind.ld_dt_vx ∧ op.kind ≠ OpKind.ld_st_vx) →
        c'.delay_timer = c.delay_timer ∧ c'.sound_timer = c.sound_timer) ∧
    (∀ (e1 e2 : Nat) (c : Cpu), 1000000000 < 60 * e1 → 1000000000 < 60 * e2 →
        c.delay_timer = 1 →
        (tickTimers e2 (tickTimers e1 c)).delay_timer = 0) := by
  have hth : ∀ e : Nat, 60 * e ≤ 1000000000 → ¬ (TIMER_TICK_NS < e) := by
    intro e he
    unfold TIMER_TICK_NS
    omega
  have hth' : ∀ e : Nat, 1000000000 < 60 * e → TIMER_TICK_NS < e := by
    intro e he
    unfold TIMER_TICK_NS
    omega
  refine ⟨?_, ?_, ?_, ?_, ?_⟩
  · intro e c he
    unfold tickTimers
    rw [if_neg (hth e he)]
  · intro e c he
    rw [tickTimers_delay, tickTimers_sound, if_pos (hth' e he),
      if_pos (hth' e he)]
    exact ⟨rfl, rfl⟩
  · intro e c
    rw [tickTimers_delay, tickTimers_sound]
    split_ifs <;> omega
  · intro c e r b c' hstep he hkinds
    rcases fetch_step_shape hstep with ⟨hend, rfl⟩ | ⟨op, c1, hop, hrun, hc'⟩
    · exact ⟨rfl, rfl⟩
    · obtain ⟨hkd, hks⟩ := hkinds op hop
      have ht := runOp_timers hrun
      have htd : (tickTimers e c1).delay_timer = c.delay_timer := by
        rw [tickTimers_delay, if_neg (hth e he)]
        exact ht.1 hkd
      have hts : (tickTimers e c1).sound_timer = c.sound_timer := by
        rw [tickTimers_sound, if_neg (hth e he)]
        exact ht.2 hks
      rcases hc' with rfl | rfl
      · exact ⟨htd, hts⟩
      · exact ⟨htd, hts⟩
  · intro e1 e2 c he1 he2 hd
    rw [tickTimers_delay, if_pos (hth' e2 he2), tickTimers_delay,
      if_pos (hth' e1 he1), hd]

/-- Witness for C6 at concrete elapsed durations and the demo state:
a 10 ms gap does not tick; the loaded `prog7` state executes its first
instruction (a load-immediate, not a timer write) without any timer
change; and two 20 ms ticks from delay_timer = 1 end at 0. -/
theorem C6_witness :
    tickTimers 10000000 zeroCpu = zeroCpu ∧
    (c7_1.delay_timer = c7_0.delay_timer ∧ c7_1.sound_timer = c7_0.sound_timer) ∧
    (tickTimers 20000000 (tickTimers 20000000
        { zeroCpu with delay_timer := 1 })).delay_timer = 0 :=
  ⟨C6_timer_policy.1 10000000 zeroCpu (by omega),
   C6_timer_policy.2.2.2.1 c7_0 0 0 true c7_1 rfl (by omega)
     (fun op hop => by
       have h2 : some (⟨0x6005, OpCodeArgs.from_u16 0x6005,
           OpKind.ld_vx_byte⟩ : OpCode) = some op := by
         rw [← hop]
         rfl
       obtain rfl := Option.some.inj h2
       exact ⟨by decide, by decide⟩),
   C6_timer_policy.2.2.2.2 20000000 20000000
     { zeroCpu with delay_timer := 1 } (by omega) (by omega) rfl⟩

/-- C2: the draw-sprite handler coincides exactly with the
specification-worded semantics `drwSpec` (read n sprite rows at the
address register; XOR each set bit into the frame buffer with
wraparound modulo 64 and 32; set register 0xF to 1 exactly when an
on pixel was turned off; set the dirty flag; advance the PC), and
drawing the single-byte sprite 0xFF twice at the same spot of a clear
region sets register 0xF to 0 on the first draw and 1 on the second. -/
theorem C2_draw_sprite :
    OpCode.opcode_drw_vx_vy_nibble = drwSpec ∧
    drawTwiceFlags (OpCodeArgs.from_u16 0xD011) drawTestCpu =
      some (0, true, 1, true) :=
  ⟨opcode_drw_eq_drwSpec, by decide⟩

/-- C3: in every reachable state 0 ≤ stack_pointer ≤ 16; call pushes
the current (pre-advance) instruction address and then jumps, so from
an empty stack 16 nested calls succeed and a 17th fails with the
stack-overflow panic; return pops the top entry and resumes one
instruction width past the pushed address, and a return on an empty
stack fails with the stack-underflow panic. -/
theorem C3_stack_discipline :
    (∀ c : Cpu, Reachable c →
        0 ≤ c.stack_pointer ∧ c.stack_pointer ≤ STACK_LENGTH) ∧
    (∀ (a : OpCodeArgs) (c : Cpu), c.stack_pointer < STACK_LENGTH →
        OpCode.opcode_call_addr a c =
          .ok { c with
                stack := updFn c.stack c.stack_pointer c.program_counter,
                stack_pointer := c.stack_pointer + 1,
                program_counter := a.nnn }) ∧
    (∀ (a : OpCodeArgs) (c : Cpu), STACK_LENGTH ≤ c.stack_pointer →
        OpCode.opcode_call_addr a c = .error .stackOverflow) ∧
    (∀ (a : OpCodeArgs) (c : Cpu), c.stack_pointer ≠ 0 →
        OpCode.opcode_ret a c =
          .ok { c with
                stack_pointer := c.stack_pointer - 1,
                program_counter :=
                  c.stack (c.stack_pointer - 1) + INSTR_SIZE }) ∧
    (∀ (a : OpCodeArgs) (c : Cpu), c.stack_pointer = 0 →
        OpCode.opcode_ret a c = .error .stackUnderflow) ∧
    nestedCallsProbe (OpCodeArgs.from_u16 0x2300) 16 (loadedCpu []) = some 16 ∧
    nestedCalls (OpCodeArgs.from_u16 0x2300) 17 (loadedCpu []) =
      .error .stackOverflow ∧
    OpCode.opcode_ret (OpCodeArgs.from_u16 0x00EE) (loadedCpu []) =
      .error .stackUnderflow := by
  refine ⟨?_, ?_, ?_, ?_, ?_, by decide, rfl, rfl⟩
  · intro c hreach
    refine ⟨Nat.zero_le _, ?_⟩
    induction hreach with
    | load buf c0 hinit =>
        unfold Cpu.init_from_buffer at hinit
        split at hinit
        · cases hinit
        · simp only [Except.ok.injEq] at hinit
          rw [← hinit]
          exact Nat.zero_le _
    | step c0 e r b c' hr hstep ih =>
        rcases fetch_step_shape hstep with ⟨hend, rfl⟩ | ⟨op, c1, hop, hrun, hc'⟩
        · exact ih
        · have hsp := runOp_sp hrun
          have hsp1 : c1.stack_pointer ≤ STACK_LENGTH := by
            omega
          obtain ⟨d, ss, hsh⟩ := tickTimers_shape e c1
          rcases hc' with rfl | rfl
          · rw [hsh]
            exact hsp1
          · rw [hsh]
            exact hsp1
    | key c0 kb hr ih => exact ih
  · intro a c hlt
    unfold OpCode.opcode_call_addr
    rw [if_neg (by omega)]
  · intro a c hge
    unfold OpCode.opcode_call_addr
    rw [if_pos hge]
  · intro a c hne
    unfold OpCode.opcode_ret
    rw [if_neg hne]
  · intro a c h0
    unfold OpCode.opcode_ret
    rw [if_pos h0]

/-- Witness for C3: the invariant at the freshly loaded empty program,
the call semantics at a state with an empty stack, and the return
semantics at a state with one stacked address. -/
theorem C3_witness :
    (0 ≤ (loadedCpu []).stack_pointer ∧
      (loadedCpu []).stack_pointer ≤ STACK_LENGTH) ∧
    OpCode.opcode_call_addr (OpCodeArgs.from_u16 0x2345) zeroCpu =
      .ok { zeroCpu with
            stack := updFn zeroCpu.stack zeroCpu.stack_pointer
              zeroCpu.program_counter,
            stack_pointer := zeroCpu.stack_pointer + 1,
            program_counter := (OpCodeArgs.from_u16 0x2345).nnn } ∧
    OpCode.opcode_ret (OpCodeArgs.from_u16 0x00EE)
        { zeroCpu with stack_pointer := 1 } =
      .ok { { zeroCpu with stack_pointer := 1 } with
            stack_pointer := ({ zeroCpu with stack_pointer := 1 } : Cpu).stack_pointer - 1,
            program_counter :=
              ({ zeroCpu with stack_pointer := 1 } : Cpu).stack
                (({ zeroCpu with stack_pointer := 1 } : Cpu).stack_pointer - 1) +
                INSTR_SIZE } :=
  ⟨C3_stack_discipline.1 (loadedCpu []) (Reachable.load [] (loadedCpu []) rfl),
   C3_stack_discipline.2.1 (OpCodeArgs.from_u16 0x2345) zeroCpu (by decide),
   C3_stack_discipline.2.2.2.1 (OpCodeArgs.from_u16 0x00EE)
     { zeroCpu with stack_pointer := 1 } (by decide)⟩

theorem step_const {c c1 : Cpu} {e r : Nat} {o : OpCode}
    (hlt : c.program_counter < USER_PROGRAM_START_ADDR + c.program_length)
    (hb1 : c.program_counter < MEMORY_LENGTH)
    (hb2 : c.program_counter + 1 < MEMORY_LENGTH)
    (hop : OpCode.from_u16 ((c.memory c.program_counter <<< 8) |||
        c.memory (c.program_counter + 1)) = some o)
    (hrun : runOp o.kind r o.args c = .ok c1)
    (hd : c1.delay_timer = 0) (hs : c1.sound_timer = 0)
    (hdf : c1.draw_flag = false) :
    c.fetch_and_execute e r = .ok (true, c1) := by
  unfold Cpu.fetch_and_execute
  rw [if_neg (by omega)]
  rw [show memRead c c.program_counter = .ok (c.memory c.program_counter) from by
      unfold memRead
      rw [if_pos hb1],
    except_bind_ok]
  rw [show memRead c (c.program_counter + 1) =
        .ok (c.memory (c.program_counter + 1)) from by
      unfold memRead
      rw [if_pos hb2],
    except_bind_ok]
  simp only [pure, Except.pure, except_bind_ok]
  split
  · next heq =>
      rw [hop] at heq
      cases heq
  · next op' heq =>
      rw [hop] at heq
      obtain rfl := Option.some.inj heq
      rw [hrun, except_bind_ok, tickTimers_timers_zero hd hs, hdf]
      simp



theorem iterSteps_zero (e r : Nat) (c : Cpu) : iterSteps e r 0 c = .ok c := rfl

theorem iterSteps_succ (e r k : Nat) (c : Cpu) :
    iterSteps e r (k + 1) c =
      c.fetch_and_execute e r >>= fun p => iterSteps e r k p.2 := rfl

theorem c7_step0 (e r : Nat) : c7_0.fetch_and_execute e r = .ok (true, c7_1) :=
  step_const (o := ⟨0x6005, OpCodeArgs.from_u16 0x6005, OpKind.ld_vx_byte⟩)
    (by decide) (by decide) (by decide) rfl rfl rfl rfl rfl

theorem c7_step1 (e r : Nat) : c7_1.fetch_and_execute e r = .ok (true, c7_2) :=
  step_const (o := ⟨0x1200, OpCodeArgs.from_u16 0x1200, OpKind.jp_addr⟩)
    (by decide) (by decide) (by decide) rfl rfl rfl rfl rfl

theorem c7_step2 (e r : Nat) : c7_2.fetch_and_execute e r = .ok (true, c7_1) := by
  have key : updFn c7_2.data_registers ((OpCodeArgs.from_u16 0x6005).x)
      ((OpCodeArgs.from_u16 0x6005).kk) = c7_1.data_registers := by
    show updFn (updFn c7_0.data_registers 0 5) 0 5 = updFn c7_0.data_registers 0 5
    exact updFn_write_same _ 0 5 5
  have hrun : runOp OpKind.ld_vx_byte r (OpCodeArgs.from_u16 0x6005) c7_2 =
      .ok c7_1 := by
    unfold runOp OpCode.opcode_ld_vx_byte
    rw [key]
    rfl
  exact step_const (o := ⟨0x6005, OpCodeArgs.from_u16 0x6005, OpKind.ld_vx_byte⟩)
    (by decide) (by decide) (by decide) rfl hrun rfl rfl rfl

theorem loadAndStep_prog7_2 : loadAndStep prog7 2 = .ok c7_2 := by
  unfold loadAndStep
  rw [show Cpu.init_from_buffer prog7 = .ok c7_0 from rfl, except_bind_ok,
    iterSteps_succ, c7_step0 0 0, except_bind_ok]
  dsimp only
  rw [iterSteps_succ, c7_step1 0 0, except_bind_ok]
  dsimp only
  rw [iterSteps_zero]

theorem loadAndStep_prog7_3 : loadAndStep prog7 3 = .ok c7_1 := by
  unfold loadAndStep
  rw [show Cpu.init_from_buffer prog7 = .ok c7_0 from rfl, except_bind_ok,
    iterSteps_succ, c7_step0 0 0, except_bind_ok]
  dsimp only
  rw [iterSteps_succ, c7_step1 0 0, except_bind_ok]
  dsimp only
  rw [iterSteps_succ, c7_step2 0 0, except_bind_ok]
  dsimp only
  rw [iterSteps_zero]

theorem loadAndStep_prog7_4 : loadAndStep prog7 4 = .ok c7_2 := by
  unfold loadAndStep
  rw [show Cpu.init_from_buffer prog7 = .ok c7_0 from rfl, except_bind_ok,
    iterSteps_succ, c7_step0 0 0, except_bind_ok]
  dsimp only
  rw [iterSteps_succ, c7_step1 0 0, except_bind_ok]
  dsimp only
  rw [iterSteps_succ, c7_step2 0 0, except_bind_ok]
  dsimp only
  rw [iterSteps_succ, c7_step1 0 0, except_bind_ok]
  dsimp only
  rw [iterSteps_zero]

/-- C7 counterexample: for the program `60 05 12 00` the jump
instruction sits at 0x202 and targets 0x200; after two steps (and
after every further even number of steps) the program counter is
0x200 — the jump's target, not the jump instruction's address 0x202 —
so the claim that stepping twice leaves the PC at the jump
instruction's address on every subsequent step is false. -/
theorem C7_counterexample :
    pcAfter prog7 2 = 0x200 ∧
    pcAfter prog7 3 = 0x202 ∧
    pcAfter prog7 4 = 0x200 ∧
    memPairAfter prog7 0 0x202 = (0x12, 0x00) ∧
    (OpCode.from_u16 0x1200).map OpCode.kind = some OpKind.jp_addr ∧
    (OpCodeArgs.from_u16 0x1200).nnn = 0x200 := by
  refine ⟨?_, ?_, ?_, ?_, by decide, by decide⟩
  · unfold pcAfter
    rw [loadAndStep_prog7_2]
    rfl
  · unfold pcAfter
    rw [loadAndStep_prog7_3]
    rfl
  · unfold pcAfter
    rw [loadAndStep_prog7_4]
    rfl
  · unfold memPairAfter loadAndStep
    rw [show Cpu.init_from_buffer prog7 = .ok c7_0 from rfl, except_bind_ok,
      iterSteps_zero]
    decide

/-- C7 (amended): the step function reports completion — returning
`(false, state)` with the state unchanged — exactly when the program
counter has reached or passed the load address plus the program
length, so a completed state is terminal; loading `60 05 12 00` and
stepping twice leaves register 0 at 5 and the program counter at
0x200 (the jump's target, the program start); thereafter every step
continues, the program counter alternates between 0x200 and 0x202,
register 0 stays 5, and execution never reports completion by
exhaustion. -/
theorem C7_completion_and_loop :
    (∀ (c : Cpu) (e r : Nat) (c' : Cpu),
        c.fetch_and_execute e r = .ok (false, c') ↔
          (USER_PROGRAM_START_ADDR + c.program_length ≤ c.program_counter ∧
           c' = c)) ∧
    Cpu.init_from_buffer prog7 = .ok c7_0 ∧
    (∀ e r : Nat, c7_0.fetch_and_execute e r = .ok (true, c7_1)) ∧
    (∀ e r : Nat, c7_1.fetch_and_execute e r = .ok (true, c7_2)) ∧
    (∀ e r : Nat, c7_2.fetch_and_execute e r = .ok (true, c7_1)) ∧
    c7_1.data_registers 0 = 5 ∧ c7_2.data_registers 0 = 5 ∧
    c7_1.program_counter = 0x202 ∧ c7_2.program_counter = 0x200 := by
  refine ⟨?_, rfl, c7_step0, c7_step1, c7_step2, rfl, rfl, rfl, rfl⟩
  intro c e r c'
  constructor
  · intro h
    by_cases hend : USER_PROGRAM_START_ADDR + c.program_length ≤ c.program_counter
    · have hh := fetch_halted (e := e) (r := r) hend
      rw [h] at hh
      simp only [Except.ok.injEq, Prod.mk.injEq] at hh
      exact ⟨hend, hh.2⟩
    · have hh := fetch_not_halted (by omega) h
      exact absurd hh (by simp)
  · rintro ⟨hend, rfl⟩
    exact fetch_halted hend

/-- Witness for C7: the completion equivalence applied at a state whose
program counter has passed the end of an empty program. -/
theorem C7_witness :
    zeroCpu.fetch_and_execute 0 0 = .ok (false, zeroCpu) :=
  (C7_completion_and_loop.1 zeroCpu 0 0 zeroCpu).mpr ⟨by decide, rfl⟩

theorem c8_step0 (e r : Nat) : c8_0.fetch_and_execute e r = .ok (true, c8_1) :=
  step_const (o := ⟨0xAFFF, OpCodeArgs.from_u16 0xAFFF, OpKind.ld_i_addr⟩)
    (by decide) (by decide) (by decide) rfl rfl rfl rfl rfl

theorem c8_step1 (e r : Nat) :
    c8_1.fetch_and_execute e r = .error (.indexOutOfBounds 0xFFF) := rfl

/-- C8 counterexample: the reachable state after `LD I, 0xFFF` leaves
the address register at 0xFFF, and the store-bcd handler then indexes
the memory array at 0xFFF — outside its fixed size (valid indices are
0x000–0xFFE) — aborting with an index-out-of-bounds panic: handler
memory accesses are not masked or bounded to the valid range. -/
theorem C8_counterexample :
    loadAndStep c8prog 2 = .error (.indexOutOfBounds 0xFFF) ∧
    ¬ (0xFFF < MEMORY_LENGTH) ∧
    (OpCode.from_u16 0xF133).map OpCode.kind = some OpKind.ld_b_vx := by
  refine ⟨?_, by decide, by decide⟩
  unfold loadAndStep
  rw [show Cpu.init_from_buffer c8prog = .ok c8_0 from rfl, except_bind_ok,
    iterSteps_succ, c8_step0 0 0, except_bind_ok]
  dsimp only
  rw [iterSteps_succ, c8_step1 0 0, except_bind_error]

/-- C8 (amended): handler memory accesses are not masked; instead, an
access outside the valid range aborts with a panic.  Whenever
draw-sprite, store-bcd, store-registers or load-registers returns
successfully, every memory index it touched is within the fixed array
size; and a reachable state exists (after `LD I, 0xFFF`) in which
store-bcd indexes the array out of bounds and panics. -/
theorem C8_memory_access_bounds :
    (∀ (a : OpCodeArgs) (c c' : Cpu),
        OpCode.opcode_drw_vx_vy_nibble a c = .ok c' →
        c.i_register + a.n ≤ MEMORY_LENGTH) ∧
    (∀ (a : OpCodeArgs) (c c' : Cpu),
        OpCode.opcode_ld_b_vx a c = .ok c' →
        c.i_register + 2 < MEMORY_LENGTH) ∧
    (∀ (a : OpCodeArgs) (c c' : Cpu),
        OpCode.opcode_ld_i_vx a c = .ok c' →
        c.i_register + a.x < MEMORY_LENGTH) ∧
    (∀ (a : OpCodeArgs) (c c' : Cpu),
        OpCode.opcode_ld_vx_i a c = .ok c' →
        c.i_register + a.x < MEMORY_LENGTH) ∧
    c8_1.i_register = 0xFFF ∧
    OpCode.opcode_ld_b_vx (OpCodeArgs.from_u16 0xF133) c8_1 =
      .error (.indexOutOfBounds 0xFFF) := by
  refine ⟨?_, ?_, ?_, ?_, rfl, rfl⟩
  · intro a c c' h
    exact (opcode_drw_ok h).1
  · intro a c c' h
    exact (opcode_ld_b_vx_ok h).1
  · intro a c c' h
    exact (opcode_ld_i_vx_ok h).1
  · intro a c c' h
    exact (opcode_ld_vx_i_ok h).1

/-- Witness for C8: the store-bcd bound applied at a concrete in-bounds
execution from the all-zero state. -/
theorem C8_witness : zeroCpu.i_register + 2 < MEMORY_LENGTH :=
  C8_memory_access_bounds.2.1 (OpCodeArgs.from_u16 0xF133) zeroCpu
    { zeroCpu with
      memory := updFn (updFn (updFn zeroCpu.memory 0 0) 1 0) 2 0,
      program_counter := zeroCpu.program_counter + INSTR_SIZE }
    rfl
